import Mathlib

/-!
Verification development for the book-recommendation engine.

The JavaScript sources (api/find-similar.js and api/recommendations.js) are
embedded shallowly: JS strings are Lean `String`s (character lists for the
text-matching helpers), JS numbers that hold integer scores are `Int`, ratings
(decimal literals such as 4.2, always with a single decimal digit) are
integers counting tenths (4.2 becomes 42), which makes every comparison and
default in the sources exact, and network responses are passed in
explicitly as data, so every adapter is a pure function of the response it
would have received.  Regular-expression patterns in the sources are
alternations of literal words, occasionally separated by the single-character
wildcard `.`; they are embedded as lists of alternatives, each alternative a
list of literal segments separated by one-character gaps.  Display-only fields
that no branching logic reads (`reason` strings, thumbnails carried verbatim)
are modelled only where a claim mentions them.
-/

namespace BookRec

/-! ### Characters and strings -/

/-- The whitespace characters relevant to `trim` and `split(/\s+/)` in the
embedded sources (all text in the repository is ASCII). -/
def isWsChar (c : Char) : Bool :=
  c == ' ' || c == '\t' || c == '\n' || c == '\r'

/-- ASCII lower-casing of a single character, embedding JS `toLowerCase` on
the repertoire the sources use. -/
def lowerChar (c : Char) : Char :=
  match c with
  | 'A' => 'a' | 'B' => 'b' | 'C' => 'c' | 'D' => 'd' | 'E' => 'e'
  | 'F' => 'f' | 'G' => 'g' | 'H' => 'h' | 'I' => 'i' | 'J' => 'j'
  | 'K' => 'k' | 'L' => 'l' | 'M' => 'm' | 'N' => 'n' | 'O' => 'o'
  | 'P' => 'p' | 'Q' => 'q' | 'R' => 'r' | 'S' => 's' | 'T' => 't'
  | 'U' => 'u' | 'V' => 'v' | 'W' => 'w' | 'X' => 'x' | 'Y' => 'y'
  | 'Z' => 'z'
  | c => c

/-- Lower-case a whole string (JS `s.toLowerCase()`). -/
def lowerStr (s : String) : String :=
  String.mk (s.data.map lowerChar)

/-- Remove leading and trailing whitespace from a character list
(JS `s.trim()`). -/
def trimChars (l : List Char) : List Char :=
  ((l.dropWhile isWsChar).reverse.dropWhile isWsChar).reverse

/-- JS `content.includes(t)` on a character list. -/
def includesB (content : List Char) (t : String) : Bool :=
  decide (t.data <:+: content)

/-- Replace the first underscore of a word by the given characters
(JS `g.replace('_', r)` replaces only the first occurrence). -/
def replUnd1 : List Char → List Char → List Char
  | [], _ => []
  | c :: cs, r => if c = '_' then r ++ cs else c :: replUnd1 cs r

/-- `genre.replace('_', ' ')`. -/
def gSpace (g : String) : String := String.mk (replUnd1 g.data [' '])

/-- `genre.replace('_', '')`. -/
def gNone (g : String) : String := String.mk (replUnd1 g.data [])

/-! ### Regex pattern embedding

A source pattern such as `/literary|contemporary.fiction/i` is embedded as a
list of alternatives; each alternative is a list of literal segments that were
separated by `.` wildcards in the source.  `segsAt` checks an alternative at
the head of a suffix, `altMatch` anywhere in the text.  The sources lower-case
the subject text before testing, so the case-insensitivity flag is absorbed by
matching lower-case literals against lower-cased content. -/

def segsAt : List String → List Char → Bool
  | [], _ => true
  | [s], t => s.data.isPrefixOf t
  | s :: rest, t =>
    s.data.isPrefixOf t && !(t.drop s.data.length).isEmpty
      && segsAt rest (t.drop (s.data.length + 1))

def altMatch (a : List String) (t : List Char) : Bool :=
  t.tails.any (segsAt a)

def patMatch (alts : List (List String)) (t : List Char) : Bool :=
  alts.any (fun a => altMatch a t)

/-! ### Text profiler of api/find-similar.js (`analyzeReferenceBook`) -/

structure RefBook where
  title : String
  author : String
  notes : String
deriving DecidableEq

/-- The `genrePatterns` table of api/find-similar.js, in source order. -/
def genrePatternsFS : List (String × List (List String)) :=
  [ ("literary_fiction", [["literary"], ["fiction"], ["novel"], ["story"],
      ["narrative"], ["contemporary", "fiction"]]),
    ("memoir", [["memoir"], ["autobiography"], ["personal", "story"],
      ["life", "story"], ["growing", "up"], ["childhood"]]),
    ("business", [["business"], ["entrepreneur"], ["startup"], ["management"],
      ["leadership"], ["strategy"], ["corporate"], ["finance"], ["economics"]]),
    ("psychology", [["psychology"], ["behavior"], ["mental"], ["cognitive"],
      ["mind"], ["brain"], ["therapy"], ["consciousness"], ["neuroscience"]]),
    ("self_help", [["self", "help"], ["improvement"], ["productivity"],
      ["success"], ["motivation"], ["habits"], ["personal", "development"],
      ["mindfulness"]]),
    ("history", [["history"], ["historical"], ["war"], ["empire"],
      ["civilization"], ["politics"], ["government"], ["democracy"],
      ["society"]]),
    ("science", [["science"], ["research"], ["physics"], ["biology"],
      ["chemistry"], ["mathematics"], ["technology"], ["innovation"],
      ["climate"]]),
    ("philosophy", [["philosophy"], ["ethics"], ["meaning"], ["existence"],
      ["wisdom"], ["truth"], ["morality"], ["consciousness"], ["spiritual"]]),
    ("biography", [["biography"], ["life", "of"], ["story", "of"],
      ["profile", "of"], ["portrait", "of"]]),
    ("current_affairs", [["politics"], ["current"], ["affairs"], ["news"],
      ["journalism"], ["social", "issues"], ["contemporary"]]),
    ("health", [["health"], ["fitness"], ["nutrition"], ["exercise"],
      ["wellness"], ["medical"], ["diet"], ["mental", "health"]]),
    ("culture", [["culture"], ["cultural"], ["art"], ["music"], ["film"],
      ["society"], ["social"], ["anthropology"], ["sociology"]]),
    ("economics", [["economics"], ["economic"], ["economy"], ["market"],
      ["capitalism"], ["trade"], ["wealth"], ["inequality"], ["financial"]]),
    ("environment", [["environment"], ["climate"], ["sustainability"],
      ["global", "warming"], ["ecology"], ["conservation"], ["nature"]]),
    ("technology", [["technology"], ["digital"], ["ai"],
      ["artificial", "intelligence"], ["computer"], ["internet"], ["tech"],
      ["innovation"]]),
    ("travel", [["travel"], ["journey"], ["adventure"], ["place"], ["country"],
      ["city"], ["culture"], ["exploration"]]),
    ("food", [["food"], ["cooking"], ["chef"], ["cuisine"], ["restaurant"],
      ["recipe"], ["culinary"], ["eating"]]),
    ("sports", [["sport"], ["athletic"], ["competition"], ["game"], ["player"],
      ["team"], ["coaching"]]) ]

/-- The stop-word list of api/find-similar.js (`isCommonWord`). -/
def commonWordsFS : List String :=
  ["that", "this", "with", "have", "will", "been", "from", "they", "know",
   "want", "good", "much", "some", "time", "very", "when", "come", "here",
   "just", "like", "long", "make", "many", "over", "such", "take", "than",
   "them", "well", "were", "what", "also", "back", "after", "use", "two",
   "how", "our", "work", "first", "way", "even", "new", "would", "any",
   "these", "give", "day", "most", "book", "books", "read", "reading",
   "author", "write", "written", "chapter", "page", "pages"]

/-- `replace(/[^\w\s]/g, ' ')`: any character that is neither a word
character (`[A-Za-z0-9_]`) nor whitespace becomes a space. -/
def wordOrSpace (c : Char) : Char :=
  if c.isAlphanum || c == '_' || isWsChar c then c else ' '

/-- `split(/\s+/)` (tokens shorter than the length filters below are dropped
later, so the exact treatment of empty tokens is immaterial). -/
def splitWsAux : List Char → List Char → List (List Char)
  | [], acc => [acc.reverse]
  | c :: cs, acc =>
    if isWsChar c then acc.reverse :: splitWsAux cs [] else splitWsAux cs (c :: acc)

def splitWs (l : List Char) : List (List Char) := splitWsAux l []

/-- Key-word extraction from the notes of the reference book
(api/find-similar.js lines 99-107). -/
def themeWordsOf (notes : String) : List String :=
  ((((splitWs ((lowerStr notes).data.map wordOrSpace)).map String.mk).filter
      (fun w => decide (5 < w.length) && !(commonWordsFS.contains w))).take 8)

structure ProfileS where
  genres : List String
  themes : List String
deriving DecidableEq

/-- `analyzeReferenceBook` of api/find-similar.js.  The fields
`writingStyle`, `bookType`, `targetAudience` and `topics` of the source
profile object are never read downstream and are omitted. -/
def analyzeReferenceBook (b : RefBook) : ProfileS :=
  let content := (lowerStr (b.title ++ " " ++ b.author ++ " " ++ b.notes)).data
  let gs := (genrePatternsFS.filter (fun pr => patMatch pr.2 content)).map (fun pr => pr.1)
  { genres := if gs.isEmpty then ["general"] else gs
    themes := if 100 < b.notes.length then themeWordsOf b.notes else [] }

/-! ### Candidate books and deduplication (api/find-similar.js) -/

/-- A candidate book as the find-similar pipeline carries it.  `genre` is the
curators' tag present only on the static award/critics tables (empty string
where the source object has no such property; the property is only ever read
on table entries, which all set it). -/
structure Book where
  title : String
  author : String
  description : String
  source : String
  publishedDate : String
  averageRating : Option Int
  thumbnail : String
  genre : String
deriving DecidableEq

/-- The deduplication key as the source computes it:
`book.title.toLowerCase().trim() + '-' + book.author.toLowerCase().trim()`. -/
def srcKey (b : Book) : List Char :=
  trimChars (b.title.data.map lowerChar) ++ '-' :: trimChars (b.author.data.map lowerChar)

/-- The identity key as the specification words it:
`lower(trim(title)) + "-" + lower(trim(author))`. -/
def specKey (b : Book) : List Char :=
  (trimChars b.title.data).map lowerChar ++ '-' :: (trimChars b.author.data).map lowerChar

/-- `removeDuplicates` of api/find-similar.js: a filter over the list that
keeps a book exactly when its key has not been seen before. -/
def removeDuplicatesAux (seen : List (List Char)) : List Book → List Book
  | [] => []
  | b :: bs =>
    if srcKey b ∈ seen then removeDuplicatesAux seen bs
    else b :: removeDuplicatesAux (srcKey b :: seen) bs

def removeDuplicates (l : List Book) : List Book := removeDuplicatesAux [] l

/-- Deduplication as the specification describes it: keep, in first-seen
order, exactly the first occurrence of each identity key. -/
def specDedupe : List Book → List Book
  | [] => []
  | b :: bs => b :: specDedupe (bs.filter (fun x => specKey x != specKey b))
termination_by l => l.length
decreasing_by
  simpa using Nat.lt_succ_of_le (List.length_filter_le _ _)

/-! ### Dates

`new Date(string)` is embedded as a parser for the ISO-style date strings the
sources produce ("YYYY", "YYYY-MM", "YYYY-MM-DD"); every other string yields
an invalid date (`none`), matching JS where such strings give `Invalid Date`
whose `getMonth`/`getFullYear` are `NaN` (and every NaN comparison is false).
A parsed date is (year, zero-based month, day); `dateKey` is a strictly
monotone proxy for the timestamp, used only for order comparisons. -/

def digitsVal (l : List Char) : Option Nat :=
  if !l.isEmpty && l.all Char.isDigit then
    some (l.foldl (fun a c => a * 10 + (c.toNat - 48)) 0)
  else none

def parseDate (s : String) : Option (Int × Nat × Nat) :=
  match s.data.splitOn '-' with
  | [y] =>
    match digitsVal y with
    | some yv => if y.length = 4 then some ((yv : Int), 0, 1) else none
    | none => none
  | [y, m] =>
    match digitsVal y, digitsVal m with
    | some yv, some mv =>
      if y.length = 4 && m.length = 2 && 1 ≤ mv && mv ≤ 12 then
        some ((yv : Int), mv - 1, 1)
      else none
    | _, _ => none
  | [y, m, d] =>
    match digitsVal y, digitsVal m, digitsVal d with
    | some yv, some mv, some dv =>
      if y.length = 4 && m.length = 2 && 1 ≤ mv && mv ≤ 12
          && d.length = 2 && 1 ≤ dv && dv ≤ 31 then
        some ((yv : Int), mv - 1, dv)
      else none
    | _, _, _ => none
  | _ => none

def dateKey : Int × Nat × Nat → Int
  | (y, m, d) => 372 * y + 31 * (m : Int) + (d : Int)

def monthNames : List String :=
  ["January", "February", "March", "April", "May", "June",
   "July", "August", "September", "October", "November", "December"]

/-- `formatDate` of api/find-similar.js.  `new Date` never throws on a string
argument, so the catch branch returning '2024' is unreachable; for an invalid
date `months[date.getMonth()]` is `undefined` and `date.getFullYear()` is
`NaN`, so the template produces the string "undefined NaN". -/
def formatDate (s : String) : String :=
  match parseDate s with
  | some (y, m, _) => monthNames.getD m "undefined" ++ " " ++ toString y
  | none => "undefined NaN"

/-! ### Scorer of api/find-similar.js (`scoreBooks`) -/

/-- The lower-cased `${book.title} ${book.description} ${book.source}`. -/
def contentFS (b : Book) : List Char :=
  (b.title.data ++ ' ' :: b.description.data ++ ' ' :: b.source.data).map lowerChar

/-- Source-prestige points (tested on the raw `source` string, case
sensitively, in the source's else-if order). -/
def sourceScore (src : String) : Int :=
  if includesB src.data "Pulitzer" then 10
  else if includesB src.data "Booker" then 9
  else if includesB src.data "National Book Award" then 8
  else if includesB src.data "NYT Bestseller" then 7
  else if includesB src.data "Critics" then 6
  else if includesB src.data "Oprah" then 5
  else 0

/-- Genre-match points: for the genre at (zero-based) rank `i`, weight
`max 1 (5 - i)` doubled when either underscore-replacement form of the genre
occurs in the content. -/
def genreScoreAux (content : List Char) : List String → Nat → Int
  | [], _ => 0
  | g :: gs, i =>
    (if includesB content (gSpace g) || includesB content (gNone g)
     then 2 * max 1 (5 - (i : Int)) else 0)
      + genreScoreAux content gs (i + 1)

/-- Theme-match points: weight `max 1 (3 - ⌊i / 2⌋)` per matching theme. -/
def themeScoreAux (content : List Char) : List String → Nat → Int
  | [], _ => 0
  | t :: ts, i =>
    (if includesB content t then max 1 (3 - ((i / 2 : Nat) : Int)) else 0)
      + themeScoreAux content ts (i + 1)

/-- Rating points; a missing rating compares false against both thresholds. -/
def ratingBonus (r : Option Int) : Int :=
  match r with
  | some q => if 43 ≤ q then 3 else if 40 ≤ q then 2 else 0
  | none => 0

/-- `new Date(book.publishedDate || '2024').getFullYear()`; the empty string
is falsy, an invalid date gives NaN and hence no bonus. -/
def pubYearFS (s : String) : Option Int :=
  (parseDate (if s = "" then "2024" else s)).map (fun p => p.1)

def recencyBonus (s : String) : Int :=
  match pubYearFS s with
  | some y => if 2024 ≤ y then 3 else if 2023 ≤ y then 2 else if 2022 ≤ y then 1 else 0
  | none => 0

def scoreFS (p : ProfileS) (b : Book) : Int :=
  sourceScore b.source
    + genreScoreAux (contentFS b) p.genres 0
    + themeScoreAux (contentFS b) p.themes 0
    + ratingBonus b.averageRating
    + recencyBonus b.publishedDate

/-- A scored candidate (`{...book, score, publicationDate, rating, image}`;
the rendered `reason` sentence is display-only and omitted). -/
structure ScoredFS where
  title : String
  author : String
  description : String
  source : String
  publishedDate : String
  averageRating : Option Int
  score : Int
  publicationDate : String
  rating : Int
deriving DecidableEq

def toScored (p : ProfileS) (b : Book) : ScoredFS :=
  { title := b.title, author := b.author, description := b.description,
    source := b.source, publishedDate := b.publishedDate,
    averageRating := b.averageRating,
    score := scoreFS p b,
    publicationDate := formatDate b.publishedDate,
    rating := b.averageRating.getD 0 }

def scoreBooks (p : ProfileS) (l : List Book) : List ScoredFS :=
  l.map (toScored p)

/-! ### Sorting

JS `Array.prototype.sort` is stable, so sorting with a consistent comparator
`c` equals any stable sort with the relation `c x y ≤ 0` ("x may stay before
y").  `List.insertionSort` inserts each earlier element in front of later
equal ones and is exactly such a stable sort. -/

/-- Comparator of `findPremiumRecommendations`: `(a, b) => b.score - a.score`. -/
def rFS (a b : ScoredFS) : Prop := b.score - a.score ≤ 0

instance : DecidableRel rFS := fun a b =>
  inferInstanceAs (Decidable (b.score - a.score ≤ 0))

/-- The assembly step of `findPremiumRecommendations`:
`.filter(book => book.score > 3).sort((a, b) => b.score - a.score)`. -/
def assembleFS (l : List ScoredFS) : List ScoredFS :=
  List.insertionSort rFS (l.filter (fun b => decide (3 < b.score)))

/-! ### Source adapters of api/find-similar.js

Network responses are explicit inputs: a function from the queried list name
or search term to the raw items the external API returned for it. -/

structure NytRaw where
  title : String
  author : String
  description : String
  published_date : String
  book_image : String
deriving DecidableEq

def nytListsFor (p : ProfileS) : List String :=
  let l1 :=
    if p.genres.contains "literary_fiction" || p.genres.contains "memoir" then
      ["combined-print-and-e-book-fiction", "combined-print-and-e-book-nonfiction"]
    else []
  let l2 := if p.genres.contains "business" then ["business-books"] else []
  let l3 :=
    if p.genres.contains "science" || p.genres.contains "history" then
      ["science", "history"]
    else []
  let all := l1 ++ l2 ++ l3
  if all.isEmpty then
    ["combined-print-and-e-book-nonfiction", "combined-print-and-e-book-fiction"]
  else all

/-- The raw NYT item is passed through unvalidated (title and author are
copied as received). -/
def nytBook (r : NytRaw) : Book :=
  { title := r.title, author := r.author, description := r.description,
    publishedDate := if r.published_date = "" then "2024" else r.published_date,
    source := "NYT Bestseller", averageRating := some 42,
    thumbnail := r.book_image, genre := "" }

def fetchNYTBestsellers (resp : String → List NytRaw) (p : ProfileS) : List Book :=
  ((nytListsFor p).take 3).flatMap (fun ln => ((resp ln).take 10).map nytBook)

/-- The static award table of `getCuratedAwardBooks` (titles, authors,
sources, dates, ratings and genre tags as in the source; descriptions
abbreviated to their first words, which no claim reads). -/
def awardTable : List Book :=
  [ { title := "Orbital", author := "Samantha Harvey",
      description := "A luminous meditation on space, time, and human connection as seen from the International Space Station.",
      publishedDate := "2023", source := "Booker Prize Winner 2024",
      averageRating := some 41, thumbnail := "", genre := "literary_fiction" },
    { title := "Creation Lake", author := "Rachel Kushner",
      description := "A provocative novel about an American spy infiltrating an environmental activist group in rural France.",
      publishedDate := "2024", source := "Booker Prize Shortlist 2024",
      averageRating := some 40, thumbnail := "", genre := "literary_fiction" },
    { title := "James", author := "Percival Everett",
      description := "A brilliant reimagining of Huckleberry Finn from Jim's perspective, exploring themes of freedom and identity.",
      publishedDate := "2024", source := "Booker Prize Shortlist 2024",
      averageRating := some 43, thumbnail := "", genre := "literary_fiction" },
    { title := "Night Watch", author := "Jayne Anne Phillips",
      description := "A sweeping novel about a young woman working as a nurse during the Civil War.",
      publishedDate := "2023", source := "Pulitzer Prize Fiction 2024",
      averageRating := some 42, thumbnail := "", genre := "literary_fiction" },
    { title := "The Safekeep", author := "Yael van der Wouden",
      description := "A taut psychological drama set in post-war Netherlands exploring desire, memory, and secrets.",
      publishedDate := "2024", source := "National Book Award Fiction 2024",
      averageRating := some 41, thumbnail := "", genre := "literary_fiction" },
    { title := "Master Slave Husband Wife", author := "Ilyon Woo",
      description := "The true story of Ellen and William Craft's daring escape from slavery in 1848 Georgia.",
      publishedDate := "2023", source := "National Book Award Nonfiction 2023",
      averageRating := some 44, thumbnail := "", genre := "history" },
    { title := "The Wager", author := "David Grann",
      description := "A gripping tale of shipwreck, survival, and mutiny in the eighteenth century.",
      publishedDate := "2023", source := "Pulitzer Prize Nonfiction 2024",
      averageRating := some 43, thumbnail := "", genre := "history" },
    { title := "The Creative Act", author := "Rick Rubin",
      description := "A guide to creativity from one of the most successful music producers of all time.",
      publishedDate := "2023", source := "Critics' Choice",
      averageRating := some 42, thumbnail := "", genre := "self_help" },
    { title := "The Power of Knowing What You Don't Know", author := "Adam Grant",
      description := "A psychologist explores the benefits of doubt and the dangers of overconfidence.",
      publishedDate := "2024", source := "Business Bestseller",
      averageRating := some 41, thumbnail := "", genre := "psychology" },
    { title := "The Heaven & Earth Grocery Store", author := "James McBride",
      description := "A novel about a Jewish family who runs a grocery store in a Black neighborhood in 1920s-1960s America.",
      publishedDate := "2023", source := "Oprah's Book Club",
      averageRating := some 42, thumbnail := "", genre := "literary_fiction" },
    { title := "The Atlas of Irish Country Life", author := "John Feehan",
      description := "A comprehensive exploration of traditional Irish rural life and culture.",
      publishedDate := "2024", source := "Cultural Critics Choice",
      averageRating := some 40, thumbnail := "", genre := "culture" } ]

def getCuratedAwardBooks (p : ProfileS) : List Book :=
  awardTable.filter (fun b =>
    p.genres.any (fun g =>
      g == b.genre || (g == "memoir" && b.genre == "biography")
        || (g == "current_affairs" && b.genre == "history")))

def criticsTable : List Book :=
  [ { title := "Fourth Wing", author := "Rebecca Yarros",
      description := "A fantasy romance about a dragon rider academy that became a viral sensation.",
      publishedDate := "2024", source := "Goodreads Choice Award",
      averageRating := some 44, thumbnail := "", genre := "literary_fiction" },
    { title := "Tomorrow, and Tomorrow, and Tomorrow", author := "Gabrielle Zevin",
      description := "A novel about friendship, love, art, and identity in the world of video game design.",
      publishedDate := "2023", source := "Time Magazine Best Books",
      averageRating := some 43, thumbnail := "", genre := "literary_fiction" },
    { title := "Demon Copperhead", author := "Barbara Kingsolver",
      description := "A modern retelling of David Copperfield set in Appalachian Virginia.",
      publishedDate := "2023", source := "Pulitzer Prize Fiction 2023",
      averageRating := some 45, thumbnail := "", genre := "literary_fiction" } ]

def getCriticsPicks (p : ProfileS) : List Book :=
  criticsTable.filter (fun b =>
    p.genres.contains b.genre || p.genres.contains "general")

structure GRawFS where
  title : String
  authors : List String
  description : String
  publishedDate : String
  averageRating : Option Int
  ratingsCount : Nat
  thumbnail : String
deriving DecidableEq

def searchTermsFS (p : ProfileS) : List String :=
  p.genres.flatMap (fun g =>
    [gSpace g ++ " 2024 award winner", gSpace g ++ " 2024 prize",
     "best " ++ gSpace g ++ " 2024"])

/-- The quality filters of `searchCuratedGoogleBooks` (a missing rating
counts as 0; an empty or unparseable published date fails the recency test). -/
def gQualityFS (r : GRawFS) : Bool :=
  decide (40 ≤ r.averageRating.getD 0) && decide (50 ≤ r.ratingsCount)
    && (match parseDate r.publishedDate with
        | some (y, _, _) => decide (2022 ≤ y)
        | none => false)
    && decide (150 < r.description.length)

/-- Note: the title is copied unvalidated; only the author has the
'Unknown Author' fallback (`volumeInfo.authors?.[0] || 'Unknown Author'`). -/
def gBookFS (r : GRawFS) : Book :=
  { title := r.title,
    author :=
      match r.authors.head? with
      | some a => if a = "" then "Unknown Author" else a
      | none => "Unknown Author",
    description := r.description, publishedDate := r.publishedDate,
    source := "Curated Selection", averageRating := r.averageRating,
    thumbnail := r.thumbnail, genre := "" }

def searchCuratedGoogleBooks (resp : String → List GRawFS) (p : ProfileS) :
    List Book :=
  ((searchTermsFS p).take 3).flatMap (fun t => ((resp t).filter gQualityFS).map gBookFS)

/-! ### Orchestrator and handler of api/find-similar.js -/

/-- The non-throwing run of `findPremiumRecommendations`: adapters in source
order, deduplicate, score, filter above the cutoff, sort.  The catch branch
(`getHighQualityFallbacks`) is taken only when an exception is thrown, never
on empty adapter results. -/
def findPremiumRecommendations (nyt : String → List NytRaw)
    (goog : String → List GRawFS) (p : ProfileS) : List ScoredFS :=
  assembleFS (scoreBooks p (removeDuplicates
    (fetchNYTBestsellers nyt p ++ getCuratedAwardBooks p
      ++ getCriticsPicks p ++ searchCuratedGoogleBooks goog p)))

/-- A static fallback recommendation (already in display shape). -/
structure FallbackRec where
  title : String
  author : String
  description : String
  publicationDate : String
  source : String
  rating : Int
  reason : String
deriving DecidableEq

def fallbackBusiness : List FallbackRec :=
  [ { title := "The Culture Map", author := "Erin Meyer",
      description := "Offers a systematic framework for understanding cultural differences in business contexts.",
      publicationDate := "2024", source := "Business Critics Choice",
      rating := 43,
      reason := "This book aligns with your business interests and offers practical cross-cultural insights." } ]

def fallbackPsychology : List FallbackRec :=
  [ { title := "Thinking, Fast and Slow", author := "Daniel Kahneman",
      description := "A groundbreaking exploration of the two systems that drive the way we think.",
      publicationDate := "2024", source := "Psychology Today Choice",
      rating := 44,
      reason := "This book explores psychological themes you've highlighted and has exceptional critical reception." } ]

def fallbackLiterary : List FallbackRec :=
  [ { title := "The Seven Husbands of Evelyn Hugo", author := "Taylor Jenkins Reid",
      description := "A reclusive Hollywood icon finally tells her story to a young journalist.",
      publicationDate := "2024", source := "Readers' Choice Award",
      rating := 45,
      reason := "This book has received widespread critical acclaim and reader recognition." } ]

/-- `getHighQualityFallbacks`: keyed by `profile.genres[0] || 'literary_fiction'`,
with `fallbacks.literary_fiction` as the default for unknown genres. -/
def getHighQualityFallbacks (p : ProfileS) : List FallbackRec :=
  let primary :=
    match p.genres.head? with
    | some g => if g = "" then "literary_fiction" else g
    | none => "literary_fiction"
  if primary = "business" then fallbackBusiness
  else if primary = "psychology" then fallbackPsychology
  else fallbackLiterary

inductive RespBodyS where
  | err (error : String)
  | errMsg (error message : String)
  | ok (recommendations : List ScoredFS) (searchedFor : String)
deriving DecidableEq

def RespBodyS.hasMessage : RespBodyS → Bool
  | .errMsg _ _ => true
  | _ => false

structure RespS where
  status : Nat
  body : RespBodyS
deriving DecidableEq

/-- The HTTP handler of api/find-similar.js on its non-throwing paths. -/
def handlerSingle (method : String) (body : Option RefBook)
    (nyt : String → List NytRaw) (goog : String → List GRawFS) : RespS :=
  if method ≠ "POST" then ⟨405, .err "Method not allowed"⟩
  else
    match body with
    | none => ⟨400, .err "Reference book is required"⟩
    | some rb =>
      ⟨200, .ok ((findPremiumRecommendations nyt goog (analyzeReferenceBook rb)).take 5)
        rb.title⟩

/-! ### Match counting (the `g`-flagged patterns of api/recommendations.js)

`content.match(pattern).length` counts non-overlapping matches: at each
position the first alternative that matches is taken and the scan resumes
after it; otherwise the scan advances one character. -/

def altLen (a : List String) : Nat :=
  (a.map String.length).sum + (a.length - 1)

def firstAltLenAt (alts : List (List String)) (t : List Char) : Option Nat :=
  match alts with
  | [] => none
  | a :: rest => if segsAt a t then some (altLen a) else firstAltLenAt rest t

/-- The scan consumes at least one character per step, so running it on
fuel `l.length` is exact; the fuel only makes the recursion structural. -/
def countMatchesF (alts : List (List String)) : List Char → Nat → Nat
  | _, 0 => 0
  | [], _ + 1 => 0
  | c :: cs, fuel + 1 =>
    match firstAltLenAt alts (c :: cs) with
    | some len => 1 + countMatchesF alts ((c :: cs).drop (max len 1)) fuel
    | none => countMatchesF alts cs fuel

def countMatches (alts : List (List String)) (l : List Char) : Nat :=
  countMatchesF alts l l.length

/-! ### Reading-history profiler of api/recommendations.js
(`analyzeReadingPatterns`) -/

/-- The `patterns` table of api/recommendations.js, in source order. -/
def genrePatternsH : List (String × List (List String)) :=
  [ ("business", [["business"], ["entrepreneur"], ["startup"], ["leadership"],
      ["management"], ["strategy"], ["finance"], ["economics"], ["marketing"],
      ["sales"]]),
    ("psychology", [["psychology"], ["psycholog"], ["behavior"], ["mental"],
      ["cognitive"], ["mind"], ["brain"], ["habit"], ["decision"], ["bias"]]),
    ("self-help", [["self", "help"], ["improvement"], ["productivity"],
      ["success"], ["motivation"], ["goal"], ["achievement"],
      ["personal", "development"]]),
    ("science", [["science"], ["research"], ["study"], ["data"],
      ["experiment"], ["theory"], ["discovery"], ["innovation"],
      ["technology"]]),
    ("history", [["history"], ["historical"], ["past"], ["ancient"],
      ["civilization"], ["war"], ["empire"], ["culture"], ["society"]]),
    ("philosophy", [["philosophy"], ["meaning"], ["existence"], ["wisdom"],
      ["ethics"], ["moral"], ["truth"], ["reality"], ["consciousness"]]),
    ("biography", [["biography"], ["memoir"], ["life", "story"],
      ["autobiography"], ["personal", "account"], ["journey"]]),
    ("health", [["health"], ["fitness"], ["nutrition"], ["exercise"],
      ["wellness"], ["medical"], ["diet"], ["physical"]]),
    ("technology", [["technology"], ["digital"], ["internet"], ["software"],
      ["computer"], ["ai"], ["artificial", "intelligence"], ["innovation"]]),
    ("fiction", [["novel"], ["story"], ["character"], ["plot"], ["narrative"],
      ["fiction"], ["literary"]]),
    ("spirituality", [["spiritual"], ["meditation"], ["mindfulness"], ["zen"],
      ["buddhist"], ["religious"], ["faith"], ["soul"]]),
    ("creativity", [["creative"], ["creativity"], ["art"], ["design"],
      ["innovation"], ["imagination"], ["inspiration"]]) ]

/-- The stop-word list of api/recommendations.js (it differs from the
find-similar one: it ends at "us"). -/
def commonWordsH : List String :=
  ["that", "this", "with", "have", "will", "been", "from", "they", "know",
   "want", "good", "much", "some", "time", "very", "when", "come", "here",
   "just", "like", "long", "make", "many", "over", "such", "take", "than",
   "them", "well", "were", "what", "also", "back", "after", "use", "two",
   "how", "our", "work", "first", "way", "even", "new", "would", "any",
   "these", "give", "day", "most", "us"]

/-- Insertion-ordered frequency map update (JS `Map.set(k, get(k)+n)` keeps
the key's first-insertion position). -/
def bumpCount (k : String) (n : Nat) : List (String × Nat) → List (String × Nat)
  | [] => [(k, n)]
  | kv :: rest =>
    if kv.1 = k then (kv.1, kv.2 + n) :: rest else kv :: bumpCount k n rest

/-- Insertion-ordered set insertion (JS `Set.add`). -/
def addUnique (s : String) : List String → List String
  | [] => [s]
  | x :: xs => if x = s then x :: xs else x :: addUnique s xs

def keywordTokensH (notes : String) : List String :=
  ((((splitWs ((lowerStr notes).data.map wordOrSpace)).map String.mk).filter
      (fun w => decide (4 < w.length) && !(commonWordsH.contains w))).take 20)

structure AccH where
  genres : List (String × Nat)
  themes : List String
  authors : List String
  keywords : List (String × Nat)

/-- Processing of one history book inside `analyzeReadingPatterns`. -/
def stepH (acc : AccH) (b : RefBook) : AccH :=
  let acc1 :=
    if b.author ≠ "" then
      { acc with authors := addUnique (String.mk (trimChars (b.author.data.map lowerChar))) acc.authors }
    else acc
  let content := (lowerStr (b.title ++ " " ++ b.notes)).data
  let acc2 :=
    genrePatternsH.foldl (fun a pr =>
      let n := countMatches pr.2 content
      if 0 < n then
        { a with genres := bumpCount pr.1 n a.genres,
                 themes := addUnique pr.1 a.themes }
      else a) acc1
  if 50 < b.notes.length then
    (keywordTokensH b.notes).foldl
      (fun a w => { a with keywords := bumpCount w 1 a.keywords }) acc2
  else acc2

/-- Comparator `(a, b) => b[1] - a[1]` on frequency-map entries. -/
def rCount (a b : String × Nat) : Prop := b.2 ≤ a.2

instance : DecidableRel rCount := fun a b =>
  inferInstanceAs (Decidable (b.2 ≤ a.2))

def topOf (m : List (String × Nat)) (k : Nat) : List String :=
  ((List.insertionSort rCount m).take k).map (fun kv => kv.1)

structure ProfileH where
  genres : List (String × Nat)
  themes : List String
  authors : List String
  keywords : List (String × Nat)
  topGenres : List String
  topKeywords : List String
  totalBooks : Nat
deriving DecidableEq

/-- `analyzeReadingPatterns` of api/recommendations.js.  Note that it inserts
no "general" sentinel anywhere. -/
def analyzeReadingPatterns (books : List RefBook) : ProfileH :=
  let acc := books.foldl stepH ⟨[], [], [], []⟩
  { genres := acc.genres, themes := acc.themes, authors := acc.authors,
    keywords := acc.keywords,
    topGenres := topOf acc.genres 5,
    topKeywords := topOf acc.keywords 10,
    totalBooks := books.length }

/-! ### General search adapter of api/recommendations.js
(`searchGoogleBooks`, `searchForRecentBooks`) -/

structure GRawGP where
  title : String
  authors : List String
  description : String
  publishedDate : String
  pageCount : Nat
  categories : List String
  averageRating : Int
  ratingsCount : Nat
  thumbnail : String
deriving DecidableEq

structure BookGP where
  title : String
  author : String
  authors : List String
  description : String
  publishedDate : String
  pageCount : Nat
  categories : List String
  averageRating : Int
  ratingsCount : Nat
  thumbnail : String
deriving DecidableEq

/-- Candidate construction in `searchGoogleBooks`.  In JS an empty (but
present) `authors` array makes `volumeInfo.authors[0]` undefined, which later
throws inside the deduplicator; the embedding totalizes that edge to the
'Unknown Author' fallback, which no claim exercises. -/
def buildGP (r : GRawGP) : BookGP :=
  { title := if r.title = "" then "Unknown Title" else r.title,
    author := if r.authors.isEmpty then "Unknown Author" else r.authors.headD "",
    authors := r.authors,
    description := if r.description = "" then "No description available" else r.description,
    publishedDate := r.publishedDate,
    pageCount := r.pageCount, categories := r.categories,
    averageRating := r.averageRating, ratingsCount := r.ratingsCount,
    thumbnail := r.thumbnail }

/-- Per-item acceptance in `searchGoogleBooks`: a missing published date is
skipped, a date strictly before the cutoff is skipped (an unparseable date is
NaN, compares false, and is kept), then the quality threshold applies. -/
def searchGoogleBooksM (items : List GRawGP) (cutoffKey : Int) : List BookGP :=
  items.filterMap (fun r =>
    if r.publishedDate = "" then none
    else
      let keep :=
        match parseDate r.publishedDate with
        | some p => decide (cutoffKey ≤ dateKey p)
        | none => true
      if keep then
        let b := buildGP r
        if 5 ≤ b.ratingsCount || 35 ≤ b.averageRating || 100 ≤ b.pageCount then
          some b
        else none
      else none)

/-- `removeDuplicateBooks` of api/recommendations.js: the same
first-seen-wins filter as find-similar's `removeDuplicates`, with the same
`title.toLowerCase().trim() + '-' + author.toLowerCase().trim()` key. -/
def keyGP (b : BookGP) : List Char :=
  trimChars (b.title.data.map lowerChar) ++ '-' :: trimChars (b.author.data.map lowerChar)

def removeDuplicateBooksAux (seen : List (List Char)) : List BookGP → List BookGP
  | [] => []
  | b :: bs =>
    if keyGP b ∈ seen then removeDuplicateBooksAux seen bs
    else b :: removeDuplicateBooksAux (keyGP b :: seen) bs

def removeDuplicateBooksGP (l : List BookGP) : List BookGP :=
  removeDuplicateBooksAux [] l

/-- The cutoff date 18 months before now (`setMonth(month - 18)` with JS
month normalization; the day of month is unchanged). -/
def cutoffKeyOf (now : Int × Nat × Nat) : Int :=
  let total : Int := now.1 * 12 + (now.2.1 : Int) - 18
  dateKey (total / 12, (total % 12).toNat, now.2.2)

def searchForRecentBooks (resp : String → List GRawGP) (p : ProfileH)
    (now : Int × Nat × Nat) : List BookGP :=
  let y := toString now.1
  let genreQueries := (p.topGenres.take 3).flatMap (fun g =>
    [g ++ " " ++ y, g ++ " books " ++ y, "best " ++ g ++ " " ++ y])
  let kwQueries := (p.topKeywords.take 2).map (fun k => k ++ " " ++ y)
  removeDuplicateBooksGP
    ((genreQueries ++ kwQueries).flatMap
      (fun q => searchGoogleBooksM (resp q) (cutoffKeyOf now)))

/-! ### Scorer and assembler of api/recommendations.js
(`generatePersonalizedRecommendations`) -/

def contentGP (b : BookGP) : List Char :=
  (b.title ++ " " ++ b.description ++ " " ++ String.intercalate " " b.categories).data.map lowerChar

/-- Genre weight `5 - index` (no clamping in this source file). -/
def genreScoreGP (content : List Char) : List String → Nat → Int
  | [], _ => 0
  | g :: gs, i =>
    (if includesB content g then (5 - (i : Int)) * 3 else 0)
      + genreScoreGP content gs (i + 1)

def kwScoreGP (content : List Char) : List String → Nat → Int
  | [], _ => 0
  | k :: ks, i =>
    (if includesB content k then max 1 (3 - ((i / 3 : Nat) : Int)) else 0)
      + kwScoreGP content ks (i + 1)

def monthsAgo (s : String) (now : Int × Nat × Nat) : Option Int :=
  (parseDate s).map (fun p => (now.1 - p.1) * 12 + ((now.2.1 : Int) - (p.2.1 : Int)))

def recencyGP (s : String) (now : Int × Nat × Nat) : Int :=
  match monthsAgo s now with
  | some m => if m ≤ 3 then 5 else if m ≤ 6 then 3 else if m ≤ 12 then 1 else 0
  | none => 0

def scoreGP (p : ProfileH) (now : Int × Nat × Nat) (b : BookGP) : Int :=
  genreScoreGP (contentGP b) p.topGenres 0
    + kwScoreGP (contentGP b) p.topKeywords 0
    + recencyGP b.publishedDate now
    + (if 40 ≤ b.averageRating then 2 else 0)
    + (if 100 ≤ b.ratingsCount then 1 else 0)
    + (if 1000 ≤ b.ratingsCount then 1 else 0)
    + (if p.authors.contains (lowerStr b.author) then -1 else 0)

structure ScoredGP where
  title : String
  author : String
  description : String
  publishedDate : String
  categories : List String
  averageRating : Int
  ratingsCount : Nat
  score : Int
deriving DecidableEq

def toScoredGP (p : ProfileH) (now : Int × Nat × Nat) (b : BookGP) : ScoredGP :=
  { title := b.title, author := b.author, description := b.description,
    publishedDate := b.publishedDate, categories := b.categories,
    averageRating := b.averageRating, ratingsCount := b.ratingsCount,
    score := scoreGP p now b }

/-- The sort comparator: score first, then
`new Date(b.publishedDate) - new Date(a.publishedDate)`; a difference
involving an invalid date is NaN, which the sort treats as 0 (equal). -/
def cGP (x y : ScoredGP) : Int :=
  if y.score ≠ x.score then y.score - x.score
  else
    match parseDate x.publishedDate, parseDate y.publishedDate with
    | some u, some v => dateKey v - dateKey u
    | _, _ => 0

def rGP (x y : ScoredGP) : Prop := cGP x y ≤ 0

instance : DecidableRel rGP := fun x y =>
  inferInstanceAs (Decidable (cGP x y ≤ 0))

/-- `.filter(score > 2).sort(comparator).slice(0, 5)`. -/
def topBooksOf (l : List BookGP) (p : ProfileH) (now : Int × Nat × Nat) :
    List ScoredGP :=
  (List.insertionSort rGP
    ((l.map (toScoredGP p now)).filter (fun b => decide (2 < b.score)))).take 5

def truncateDescription (d : String) : String :=
  if d = "" then "No description available."
  else if 200 < d.length then String.mk (d.data.take 200) ++ "..."
  else d

/-- One entry of the final payload.  The display-only `genre` tag
(`detectPrimaryGenre`) and rendered `reason` sentence are omitted; no claim
reads them. -/
structure RecGP where
  title : String
  author : String
  publicationYear : Option Int
  publicationDate : String
  description : String
  rating : Int
  reviewSource : String
deriving DecidableEq

/-- `formatPublicationDate` of api/recommendations.js has the same body as
find-similar's `formatDate` without the (dead) try/catch, hence the same
embedding `formatDate`. -/
def fmtRecGP (b : ScoredGP) : RecGP :=
  { title := b.title, author := b.author,
    publicationYear := (parseDate b.publishedDate).map (fun p => p.1),
    publicationDate := formatDate b.publishedDate,
    description := truncateDescription b.description,
    rating := if b.averageRating = 0 then 40 else b.averageRating,
    reviewSource := "Google Books" }

def generatePersonalizedRecommendations (l : List BookGP) (p : ProfileH)
    (now : Int × Nat × Nat) : List RecGP :=
  (topBooksOf l p now).map fmtRecGP

inductive RespBodyH where
  | err (error : String)
  | errMsg (error message : String)
  | ok (recommendations : List RecGP)
deriving DecidableEq

def RespBodyH.hasMessage : RespBodyH → Bool
  | .errMsg _ _ => true
  | _ => false

structure RespH where
  status : Nat
  body : RespBodyH
deriving DecidableEq

/-- The HTTP handler of api/recommendations.js on its non-throwing paths
(`none` stands for a missing or non-array `readingHistory`). -/
def handlerHist (method : String) (body : Option (List RefBook))
    (resp : String → List GRawGP) (now : Int × Nat × Nat) : RespH :=
  if method ≠ "POST" then ⟨405, .err "Method not allowed"⟩
  else
    match body with
    | none => ⟨400, .err "Invalid reading history data"⟩
    | some history =>
      let p := analyzeReadingPatterns history
      ⟨200, .ok (generatePersonalizedRecommendations (searchForRecentBooks resp p now) p now)⟩

/-! ### Lemmas: lower-casing commutes with trimming -/

theorem isWsChar_lowerChar (c : Char) : isWsChar (lowerChar c) = isWsChar c := by
  unfold lowerChar
  split <;> rfl

theorem isWsChar_comp_lowerChar : isWsChar ∘ lowerChar = isWsChar :=
  funext isWsChar_lowerChar

theorem trimChars_map_lowerChar (l : List Char) :
    trimChars (l.map lowerChar) = (trimChars l).map lowerChar := by
  unfold trimChars
  rw [List.dropWhile_map, isWsChar_comp_lowerChar, ← List.map_reverse,
    List.dropWhile_map, isWsChar_comp_lowerChar, ← List.map_reverse]

theorem specKey_eq_srcKey (b : Book) : specKey b = srcKey b := by
  unfold specKey srcKey
  rw [trimChars_map_lowerChar, trimChars_map_lowerChar]

/-! ### Lemmas: deduplication -/

theorem removeDuplicatesAux_length (l : List Book) :
    ∀ seen, (removeDuplicatesAux seen l).length ≤ l.length := by
  induction l with
  | nil => intro seen; simp [removeDuplicatesAux]
  | cons b bs ih =>
    intro seen
    by_cases h : srcKey b ∈ seen
    · simp only [removeDuplicatesAux, if_pos h]
      exact Nat.le_succ_of_le (ih seen)
    · simp only [removeDuplicatesAux, if_neg h, List.length_cons]
      exact Nat.succ_le_succ (ih _)

theorem removeDuplicatesAux_idem (l : List Book) :
    ∀ seen, removeDuplicatesAux seen (removeDuplicatesAux seen l)
      = removeDuplicatesAux seen l := by
  induction l with
  | nil => intro seen; simp [removeDuplicatesAux]
  | cons b bs ih =>
    intro seen
    by_cases h : srcKey b ∈ seen
    · simp only [removeDuplicatesAux, if_pos h]
      exact ih seen
    · simp only [removeDuplicatesAux, if_neg h]
      rw [ih (srcKey b :: seen)]

theorem removeDuplicatesAux_eq_spec (l : List Book) :
    ∀ seen, removeDuplicatesAux seen l
      = specDedupe (l.filter (fun b => !(decide (srcKey b ∈ seen)))) := by
  induction l with
  | nil => intro seen; simp [removeDuplicatesAux, specDedupe]
  | cons b bs ih =>
    intro seen
    by_cases h : srcKey b ∈ seen
    · simp only [removeDuplicatesAux, if_pos h, List.filter_cons,
        decide_eq_true h, Bool.not_true, Bool.false_eq_true, if_neg,
        not_false_iff]
      exact ih seen
    · simp only [removeDuplicatesAux, if_neg h, List.filter_cons,
        decide_eq_false h, Bool.not_false, if_pos]
      simp only [specDedupe]
      rw [ih (srcKey b :: seen), List.filter_filter]
      congr 1
      congr 1
      apply List.filter_congr
      intro x _
      rw [specKey_eq_srcKey, specKey_eq_srcKey]
      by_cases hx : srcKey x = srcKey b
      · simp [hx]
      · simp [hx, Ne.symm hx]

theorem removeDuplicates_eq_specDedupe (l : List Book) :
    removeDuplicates l = specDedupe l := by
  rw [removeDuplicates, removeDuplicatesAux_eq_spec]
  congr 1
  simp

/-! ### Claim C3 -/

/-- The duplicate-across-adapters scenario: same title and author from two
adapters, different descriptions and sources. -/
def atomicFirst : Book :=
  { title := "Atomic Habits", author := "James Clear",
    description := "first description", source := "NYT Bestseller",
    publishedDate := "2024", averageRating := some 42,
    thumbnail := "", genre := "" }

def atomicSecond : Book :=
  { title := "Atomic Habits", author := "James Clear",
    description := "second description", source := "Curated Selection",
    publishedDate := "2024", averageRating := some 44,
    thumbnail := "", genre := "" }

/-- Claim C3: deduplication keeps, in first-seen order, exactly the first
occurrence of each identity key lower(trim(title)) + "-" + lower(trim(author))
(`specDedupe` is that reference description verbatim); consequently it is
idempotent, never lengthens the list, and two same-identity candidates from
different adapters collapse to the first-seen instance. -/
theorem dedupe_first_occurrence_spec (L : List Book) :
    removeDuplicates L = specDedupe L
      ∧ removeDuplicates (removeDuplicates L) = removeDuplicates L
      ∧ (removeDuplicates L).length ≤ L.length
      ∧ removeDuplicates [atomicFirst, atomicSecond] = [atomicFirst] :=
  ⟨removeDuplicates_eq_specDedupe L, removeDuplicatesAux_idem L [],
    removeDuplicatesAux_length L [], by decide⟩

/-! ### Claim C10 -/

/-- Claim C10: with the sentinel profile (genres exactly ["general"]) the
curated/award adapter returns nothing — "general" matches no table genre and
no cross-mapping — while the critics adapter returns its whole static
table. -/
theorem general_sentinel_adapters (p : ProfileS) (h : p.genres = ["general"]) :
    getCuratedAwardBooks p = [] ∧ getCriticsPicks p = criticsTable := by
  constructor
  · unfold getCuratedAwardBooks
    rw [h]
    decide
  · unfold getCriticsPicks
    rw [h]
    decide

theorem general_sentinel_adapters_witness :
    (⟨["general"], []⟩ : ProfileS).genres = ["general"]
      ∧ getCuratedAwardBooks ⟨["general"], []⟩ = []
      ∧ getCriticsPicks ⟨["general"], []⟩ = criticsTable :=
  ⟨rfl, (general_sentinel_adapters ⟨["general"], []⟩ rfl).1,
    (general_sentinel_adapters ⟨["general"], []⟩ rfl).2⟩

/-! ### Claim C9 -/

/-- Claim C9 (code bug): `formatDate` renders parseable dates as "Month Year",
but on an unparseable date it returns the malformed string "undefined NaN"
instead of the generic "2024" the spec describes — `new Date` never throws on
a string, so the catch branch that would return '2024' is dead code. -/
theorem formatDate_unparseable_bug :
    formatDate "2023-05-12" = "May 2023"
      ∧ formatDate "2024" = "January 2024"
      ∧ formatDate "garbage" = "undefined NaN"
      ∧ formatDate "garbage" ≠ "2024" := by
  refine ⟨by decide, by decide, by decide, by decide⟩

/-! ### Claim C8 -/

/-- Claim C8 (counterexample): on invalid input both handlers respond with an
object carrying only an `error` field — there is no `message` field, contrary
to the claimed `{error, message}` shape. -/
theorem input_error_shape_counterexample :
    (handlerSingle "POST" none (fun _ => []) (fun _ => [])).status = 400
      ∧ RespBodyS.hasMessage
          (handlerSingle "POST" none (fun _ => []) (fun _ => [])).body = false
      ∧ (handlerHist "POST" none (fun _ => []) (2026, 9, 12)).status = 400
      ∧ RespBodyH.hasMessage
          (handlerHist "POST" none (fun _ => []) (2026, 9, 12)).body = false :=
  ⟨rfl, rfl, rfl, rfl⟩

/-- Claim C8 as amended: invalid input (missing reference book; missing or
non-array reading history) yields status 400 with an error-only body (no
`message` field — `{error, message}` appears only on the internal 500 path),
and valid input never fails: it yields status 200 with a recommendations
payload even when every adapter result is empty. -/
theorem input_error_contract (rb : RefBook) (hist : List RefBook)
    (nyt : String → List NytRaw) (goog : String → List GRawFS)
    (resp : String → List GRawGP) (now : Int × Nat × Nat) :
    handlerSingle "POST" none nyt goog = ⟨400, .err "Reference book is required"⟩
      ∧ (handlerSingle "POST" (some rb) nyt goog).status = 200
      ∧ RespBodyS.hasMessage (handlerSingle "POST" (some rb) nyt goog).body = false
      ∧ handlerHist "POST" none resp now = ⟨400, .err "Invalid reading history data"⟩
      ∧ (handlerHist "POST" (some hist) resp now).status = 200
      ∧ RespBodyH.hasMessage (handlerHist "POST" (some hist) resp now).body = false :=
  ⟨rfl, rfl, rfl, rfl, rfl, rfl⟩

/-! ### Claim C4 -/

/-- Claim C4 (counterexample): for an input whose text matches no taxonomy
pattern, `analyzeReferenceBook` leaves `themes` empty (only `genres` gets the
"general" sentinel), and `analyzeReadingPatterns` has no sentinel at all: its
genre ranking and theme set both come out empty. -/
theorem profile_nonempty_counterexample :
    (analyzeReferenceBook ⟨"zz", "qq", ""⟩).themes = []
      ∧ (analyzeReadingPatterns [⟨"zz", "qq", ""⟩]).topGenres = []
      ∧ (analyzeReadingPatterns [⟨"zz", "qq", ""⟩]).genres = []
      ∧ (analyzeReadingPatterns [⟨"zz", "qq", ""⟩]).themes = []
      ∧ (analyzeReferenceBook ⟨"zz", "qq", ""⟩).genres = ["general"] := by
  refine ⟨by decide, by decide, by decide, by decide, by decide⟩

/-- Claim C4 as amended: only the `genres` list of the single-reference
profiler is guaranteed non-empty (via the "general" sentinel); its `themes`
list may be empty, and the history profiler inserts no sentinel anywhere. -/
theorem analyzeReferenceBook_genres_nonempty (b : RefBook) :
    (analyzeReferenceBook b).genres ≠ [] := by
  unfold analyzeReferenceBook
  dsimp only
  split
  · simp
  · next h => simpa [List.isEmpty_iff] using h

/-! ### Lemmas: score components -/

theorem sourceScore_nonneg (s : String) : 0 ≤ sourceScore s := by
  unfold sourceScore
  split_ifs <;> norm_num

theorem genreScoreAux_nonneg (c : List Char) :
    ∀ (gs : List String) (i : Nat), 0 ≤ genreScoreAux c gs i := by
  intro gs
  induction gs with
  | nil => intro i; simp [genreScoreAux]
  | cons g gs ih =>
    intro i
    have hrest := ih (i + 1)
    have hm : (1 : Int) ≤ max 1 (5 - (i : Int)) := le_max_left _ _
    simp only [genreScoreAux]
    split_ifs <;> omega

theorem themeScoreAux_nonneg (c : List Char) :
    ∀ (ts : List String) (i : Nat), 0 ≤ themeScoreAux c ts i := by
  intro ts
  induction ts with
  | nil => intro i; simp [themeScoreAux]
  | cons t ts ih =>
    intro i
    have hrest := ih (i + 1)
    have hm : (1 : Int) ≤ max 1 (3 - ((i / 2 : Nat) : Int)) := le_max_left _ _
    simp only [themeScoreAux]
    split_ifs <;> omega

theorem ratingBonus_nonneg (r : Option Int) : 0 ≤ ratingBonus r := by
  rcases r with _ | q
  · simp [ratingBonus]
  · simp only [ratingBonus]
    split_ifs <;> norm_num

theorem recencyBonus_nonneg (s : String) : 0 ≤ recencyBonus s := by
  cases hy : pubYearFS s
  · simp [recencyBonus, hy]
  · simp only [recencyBonus, hy]
    split_ifs <;> norm_num

theorem genreScoreGP_nonneg (c : List Char) :
    ∀ (gs : List String) (i : Nat), gs.length + i ≤ 5 → 0 ≤ genreScoreGP c gs i := by
  intro gs
  induction gs with
  | nil => intro i _; simp [genreScoreGP]
  | cons g gs ih =>
    intro i h
    simp only [List.length_cons] at h
    have hrest := ih (i + 1) (by omega)
    have hi : (i : Int) ≤ 4 := by exact_mod_cast Nat.le_of_lt_succ (by omega)
    simp only [genreScoreGP]
    split_ifs <;> nlinarith

theorem kwScoreGP_nonneg (c : List Char) :
    ∀ (ks : List String) (i : Nat), 0 ≤ kwScoreGP c ks i := by
  intro ks
  induction ks with
  | nil => intro i; simp [kwScoreGP]
  | cons k ks ih =>
    intro i
    have hrest := ih (i + 1)
    have hm : (1 : Int) ≤ max 1 (3 - ((i / 3 : Nat) : Int)) := le_max_left _ _
    simp only [kwScoreGP]
    split_ifs <;> omega

theorem recencyGP_nonneg (s : String) (now : Int × Nat × Nat) :
    0 ≤ recencyGP s now := by
  cases hm : monthsAgo s now
  · simp [recencyGP, hm]
  · simp only [recencyGP, hm]
    split_ifs <;> norm_num

/-! ### Claim C7 -/

/-- A history profile that has read author "bob" and matches nothing else. -/
def profNeg : ProfileH :=
  { genres := [], themes := [], authors := ["bob"], keywords := [],
    topGenres := [], topKeywords := [], totalBooks := 1 }

/-- A candidate by that same author with no positive signal: old publication,
zero rating, zero ratings count. -/
def bookNeg : BookGP :=
  { title := "x", author := "Bob", authors := ["Bob"], description := "y",
    publishedDate := "1990", pageCount := 0, categories := [],
    averageRating := 0, ratingsCount := 0, thumbnail := "" }

/-- Claim C7 (counterexample): the history scorer can assign a negative
score — when the novelty penalty fires and no other signal contributes the
score is exactly -1. -/
theorem score_nonneg_counterexample :
    scoreGP profNeg (2026, 9, 12) bookNeg = -1
      ∧ scoreGP profNeg (2026, 9, 12) bookNeg < 0 := by
  refine ⟨by decide, by decide⟩

/-- Claim C7 as amended: the find-similar scorer is non-negative for every
profile and candidate; the history scorer is only bounded below by -1 (the
novelty penalty), for every profile whose ranked genre list has at most the
five entries the profiler produces. -/
theorem score_lower_bounds :
    (∀ (p : ProfileS) (b : Book), 0 ≤ scoreFS p b)
      ∧ (∀ (p : ProfileH) (now : Int × Nat × Nat) (b : BookGP),
          p.topGenres.length ≤ 5 → -1 ≤ scoreGP p now b) := by
  constructor
  · intro p b
    unfold scoreFS
    have h1 := sourceScore_nonneg b.source
    have h2 := genreScoreAux_nonneg (contentFS b) p.genres 0
    have h3 := themeScoreAux_nonneg (contentFS b) p.themes 0
    have h4 := ratingBonus_nonneg b.averageRating
    have h5 := recencyBonus_nonneg b.publishedDate
    omega
  · intro p now b hlen
    unfold scoreGP
    have h1 := genreScoreGP_nonneg (contentGP b) p.topGenres 0 (by omega)
    have h2 := kwScoreGP_nonneg (contentGP b) p.topKeywords 0
    have h3 := recencyGP_nonneg b.publishedDate now
    split_ifs <;> omega

theorem score_lower_bounds_witness :
    0 ≤ scoreFS ⟨["business"], []⟩ atomicFirst
      ∧ profNeg.topGenres.length ≤ 5
      ∧ -1 ≤ scoreGP profNeg (2026, 9, 12) bookNeg :=
  ⟨score_lower_bounds.1 ⟨["business"], []⟩ atomicFirst, by decide,
    score_lower_bounds.2 profNeg (2026, 9, 12) bookNeg (by decide)⟩

/-! ### Claim C1 -/

theorem fetchNYT_empty (p : ProfileS) :
    fetchNYTBestsellers (fun _ => []) p = [] := by
  simp [fetchNYTBestsellers]

theorem searchGoogle_empty (p : ProfileS) :
    searchCuratedGoogleBooks (fun _ => []) p = [] := by
  simp [searchCuratedGoogleBooks]

theorem getHighQualityFallbacks_ne_nil (p : ProfileS) :
    getHighQualityFallbacks p ≠ [] := by
  unfold getHighQualityFallbacks
  dsimp only
  split_ifs <;> simp [fallbackBusiness, fallbackPsychology, fallbackLiterary]

theorem flatMap_const_nil {α β : Type} (l : List α) :
    l.flatMap (fun _ => ([] : List β)) = [] := by
  induction l with
  | nil => rfl
  | cons a t ih => simp [ih]

theorem searchForRecent_empty (p : ProfileH) (now : Int × Nat × Nat) :
    searchForRecentBooks (fun _ => []) p now = [] := by
  simp [searchForRecentBooks, searchGoogleBooksM, flatMap_const_nil,
    removeDuplicateBooksGP, removeDuplicateBooksAux]

/-- Claim C1 (counterexample): with every network response empty and a
profile the static tables do not serve, both handlers return an EMPTY
recommendations array — the static fallback tables are reached only from the
catch branches, which empty results never trigger. -/
theorem fallback_counterexample :
    handlerSingle "POST" (some ⟨"business", "a", ""⟩) (fun _ => []) (fun _ => [])
        = ⟨200, .ok [] "business"⟩
      ∧ handlerHist "POST" (some [⟨"zz", "qq", ""⟩]) (fun _ => []) (2026, 9, 12)
        = ⟨200, .ok []⟩ := by
  refine ⟨by decide, by decide⟩

/-- Claim C1 as amended: on the non-throwing path, zero adapter results give
the empty recommendations list (no fallback substitution); the static
fallback table — keyed by primary genre, non-empty for every profile — is
returned only when `findPremiumRecommendations` throws internally, and the
history pipeline analogously returns the empty list. -/
theorem fallback_only_on_throw :
    (∀ p : ProfileS, getCuratedAwardBooks p = [] → getCriticsPicks p = [] →
        findPremiumRecommendations (fun _ => []) (fun _ => []) p = []
          ∧ getHighQualityFallbacks p ≠ [])
      ∧ (∀ (p : ProfileH) (now : Int × Nat × Nat),
          generatePersonalizedRecommendations
            (searchForRecentBooks (fun _ => []) p now) p now = []) := by
  constructor
  · intro p h1 h2
    refine ⟨?_, getHighQualityFallbacks_ne_nil p⟩
    unfold findPremiumRecommendations
    rw [fetchNYT_empty, searchGoogle_empty, h1, h2]
    rfl
  · intro p now
    rw [searchForRecent_empty]
    rfl

def bizProfile : ProfileS := analyzeReferenceBook ⟨"business", "a", ""⟩

theorem fallback_only_on_throw_witness :
    getCuratedAwardBooks bizProfile = []
      ∧ getCriticsPicks bizProfile = []
      ∧ findPremiumRecommendations (fun _ => []) (fun _ => []) bizProfile = []
      ∧ getHighQualityFallbacks bizProfile ≠ [] := by
  have h1 : getCuratedAwardBooks bizProfile = [] := by decide
  have h2 : getCriticsPicks bizProfile = [] := by decide
  exact ⟨h1, h2, (fallback_only_on_throw.1 bizProfile h1 h2).1,
    (fallback_only_on_throw.1 bizProfile h1 h2).2⟩

/-! ### Claim C6 -/

/-- A Google Books raw item with an empty title that passes every quality
filter of `searchCuratedGoogleBooks` (good rating, enough reviews, recent,
long description). -/
def gRawNoTitle : GRawFS :=
  { title := "", authors := ["Some Author"],
    description := "A very long description that easily clears the one hundred and fifty character minimum imposed by the strict quality filters of the curated search adapter in this codebase.",
    publishedDate := "2023", averageRating := some 45, ratingsCount := 120,
    thumbnail := "" }

set_option maxRecDepth 4000 in
/-- Claim C6 (counterexample): the bestseller adapter copies title and author
from the API payload with no validation, and the curated-search adapter never
checks the title — candidates with empty titles (and, for the bestseller
adapter, empty authors) pass the adapter boundary and reach the deduplicator
and scorer. -/
theorem adapter_boundary_counterexample :
    (fetchNYTBestsellers (fun _ => [⟨"", "", "d", "2024", ""⟩]) ⟨["general"], []⟩).map
        (fun b => (b.title, b.author)) = [("", ""), ("", "")]
      ∧ (searchCuratedGoogleBooks (fun _ => [gRawNoTitle]) ⟨["general"], []⟩).map
          (fun b => b.title) = ["", "", ""] := by
  refine ⟨by decide, by decide⟩

/-- Claim C6 as amended: only the two static adapters guarantee non-empty
titles and authors, and the curated-search adapter guarantees a non-empty
author (the 'Unknown Author' fallback); the bestseller adapter validates
nothing, and no adapter validates the search-result title, so such candidates
are NOT dropped at the adapter boundary. -/
theorem adapter_boundary_amended :
    (∀ (p : ProfileS), ∀ b ∈ getCuratedAwardBooks p, b.title ≠ "" ∧ b.author ≠ "")
      ∧ (∀ (p : ProfileS), ∀ b ∈ getCriticsPicks p, b.title ≠ "" ∧ b.author ≠ "")
      ∧ (∀ (resp : String → List GRawFS) (p : ProfileS),
          ∀ b ∈ searchCuratedGoogleBooks resp p, b.author ≠ "") := by
  refine ⟨?_, ?_, ?_⟩
  · intro p b hb
    have htab : ∀ b ∈ awardTable, b.title ≠ "" ∧ b.author ≠ "" := by decide
    exact htab b (List.mem_of_mem_filter hb)
  · intro p b hb
    have htab : ∀ b ∈ criticsTable, b.title ≠ "" ∧ b.author ≠ "" := by decide
    exact htab b (List.mem_of_mem_filter hb)
  · intro resp p b hb
    simp only [searchCuratedGoogleBooks, List.mem_flatMap, List.mem_map] at hb
    obtain ⟨t, -, r, -, rfl⟩ := hb
    rcases hh : r.authors.head? with _ | a
    · simp [gBookFS, hh]
    · by_cases ha : a = "" <;> simp [gBookFS, hh, ha]

/-- A well-formed Google raw item used to exercise the amended theorem. -/
def gRawGood : GRawFS :=
  { title := "A Title", authors := ["An Author"],
    description := "Another long description that comfortably clears the one hundred and fifty character minimum imposed by the strict quality filters of the curated search adapter here.",
    publishedDate := "2024", averageRating := some 44, ratingsCount := 80,
    thumbnail := "" }

set_option maxRecDepth 4000 in
theorem adapter_boundary_amended_witness :
    gBookFS gRawGood ∈ searchCuratedGoogleBooks (fun _ => [gRawGood]) ⟨["general"], []⟩
      ∧ (gBookFS gRawGood).author ≠ "" := by
  have hmem : gBookFS gRawGood ∈ searchCuratedGoogleBooks (fun _ => [gRawGood]) ⟨["general"], []⟩ := by
    decide
  exact ⟨hmem, adapter_boundary_amended.2.2 (fun _ => [gRawGood]) ⟨["general"], []⟩
    (gBookFS gRawGood) hmem⟩

/-! ### Stable sorting: pairwise order of the sorted output

`List.insertionSort r` is the stable sort JS `Array.prototype.sort` performs
when `r x y` is "comparator(x, y) ≤ 0".  The lemmas below derive the pairwise
order `C` of the sorted output from local properties of `r` on the elements
actually present (needed because the history comparator treats unparseable
dates as ties, which is transitive only among parseable dates). -/

theorem pairwise_orderedInsertP {α : Type} {r C : α → α → Prop} [DecidableRel r]
    {P : α → Prop}
    (hrc : ∀ x y, P x → P y → r x y → C x y)
    (hneg : ∀ x y, P x → P y → ¬ r x y → C y x)
    (htrans : ∀ x y z, C x y → C y z → C x z)
    (x : α) (hx : P x) :
    ∀ l : List α, (∀ y ∈ l, P y) → l.Pairwise C →
      (List.orderedInsert r x l).Pairwise C := by
  intro l
  induction l with
  | nil => intro _ _; simp
  | cons y ys ih =>
    intro hP hl
    have hy : P y := hP y (by simp)
    have hys : ∀ z ∈ ys, P z := fun z hz => hP z (by simp [hz])
    rw [List.pairwise_cons] at hl
    by_cases h : r x y
    · rw [List.orderedInsert, if_pos h]
      refine List.pairwise_cons.2 ⟨?_, List.pairwise_cons.2 ⟨hl.1, hl.2⟩⟩
      intro z hz
      rcases List.mem_cons.1 hz with rfl | hz'
      · exact hrc x z hx hy h
      · exact htrans x y z (hrc x y hx hy h) (hl.1 z hz')
    · rw [List.orderedInsert, if_neg h]
      refine List.pairwise_cons.2 ⟨?_, ih hys hl.2⟩
      intro z hz
      rcases (List.mem_orderedInsert r).1 hz with rfl | hz'
      · exact hneg z y hx hy h
      · exact hl.1 z hz'

theorem pairwise_insertionSortP {α : Type} {r C : α → α → Prop} [DecidableRel r]
    {P : α → Prop}
    (hrc : ∀ x y, P x → P y → r x y → C x y)
    (hneg : ∀ x y, P x → P y → ¬ r x y → C y x)
    (htrans : ∀ x y z, C x y → C y z → C x z) :
    ∀ l : List α, (∀ y ∈ l, P y) → (List.insertionSort r l).Pairwise C := by
  intro l
  induction l with
  | nil => intro _; simp
  | cons a t ih =>
    intro hP
    rw [List.insertionSort]
    refine pairwise_orderedInsertP hrc hneg htrans a (hP a (by simp)) _ ?_
      (ih fun y hy => hP y (by simp [hy]))
    intro y hy
    exact hP y (by simp [(List.perm_insertionSort r t).mem_iff.1 hy])

/-! ### Claim C2 -/

/-- Timestamp proxy of a scored candidate's publication date (0 when
unparseable); used only to state order properties. -/
def pubKeyFS (b : ScoredFS) : Int := (parseDate b.publishedDate).elim 0 dateKey

/-- The ordering the claim asserts for find-similar output: score strictly
descending, ties broken by more recent publication date first. -/
def claimOrderFS (a b : ScoredFS) : Prop :=
  b.score < a.score ∨ (a.score = b.score ∧ pubKeyFS b ≤ pubKeyFS a)

instance : DecidableRel claimOrderFS := fun a b =>
  inferInstanceAs (Decidable (b.score < a.score ∨ (a.score = b.score ∧ pubKeyFS b ≤ pubKeyFS a)))

/-- Descending-score order: all that find-similar's comparator guarantees. -/
def scoreGeFS (a b : ScoredFS) : Prop := b.score ≤ a.score

def pubKeyGP (b : ScoredGP) : Int := (parseDate b.publishedDate).elim 0 dateKey

def claimOrderGP (a b : ScoredGP) : Prop :=
  b.score < a.score ∨ (a.score = b.score ∧ pubKeyGP b ≤ pubKeyGP a)

/-- Two scored candidates with equal scores; the earlier-listed one is the
older publication. -/
def tieOld : ScoredFS :=
  { title := "older", author := "a", description := "", source := "",
    publishedDate := "2023", averageRating := none, score := 5,
    publicationDate := "January 2023", rating := 0 }

def tieNew : ScoredFS :=
  { title := "newer", author := "b", description := "", source := "",
    publishedDate := "2024", averageRating := none, score := 5,
    publicationDate := "January 2024", rating := 0 }

/-- Claim C2 (counterexample): find-similar's sort uses only
`b.score - a.score`; on a score tie the first-seen order is kept, so the
older publication can precede the newer one and the claimed date tie-break
fails. -/
theorem assembler_order_counterexample :
    assembleFS [tieOld, tieNew] = [tieOld, tieNew]
      ∧ ¬ (assembleFS [tieOld, tieNew]).Pairwise claimOrderFS
      ∧ pubKeyFS tieOld < pubKeyFS tieNew := by
  refine ⟨by decide, by decide, by decide⟩

/-- Claim C2 as amended: find-similar's assembled output is sorted by
descending score only (score ties keep first-seen order; no date tie-break)
and the handler's truncation keeps at most 5; the history pipeline's output
is sorted by descending score with the more-recent-date tie-break — provided
every candidate's publication date parses, since the comparator treats any
unparseable date as a tie — and has length at most 5. -/
theorem assembler_order_amended :
    (∀ l : List ScoredFS,
        (assembleFS l).Pairwise scoreGeFS ∧ ((assembleFS l).take 5).length ≤ 5)
      ∧ (∀ (l : List BookGP) (p : ProfileH) (now : Int × Nat × Nat),
          (∀ b ∈ l, (parseDate b.publishedDate).isSome) →
            (topBooksOf l p now).Pairwise claimOrderGP
              ∧ (generatePersonalizedRecommendations l p now).length ≤ 5) := by
  constructor
  · intro l
    constructor
    · unfold assembleFS
      refine pairwise_insertionSortP (P := fun _ => True)
        (fun x y _ _ h => ?_) (fun x y _ _ h => ?_) (fun x y z h1 h2 => ?_)
        _ (fun _ _ => trivial)
      · unfold rFS at h
        unfold scoreGeFS
        omega
      · unfold rFS at h
        unfold scoreGeFS
        omega
      · unfold scoreGeFS at h1 h2 ⊢
        omega
    · simp [List.length_take]
  · intro l p now hdates
    have hP : ∀ y ∈ (l.map (toScoredGP p now)).filter (fun b => decide (2 < b.score)),
        (parseDate y.publishedDate).isSome := by
      intro y hy
      obtain ⟨b, hb, rfl⟩ := List.mem_map.1 (List.mem_of_mem_filter hy)
      exact hdates b hb
    have hsorted : (List.insertionSort rGP
        ((l.map (toScoredGP p now)).filter (fun b => decide (2 < b.score)))).Pairwise
          claimOrderGP := by
      refine pairwise_insertionSortP
        (P := fun b => (parseDate b.publishedDate).isSome)
        (fun x y hx hy h => ?_) (fun x y hx hy h => ?_)
        (fun x y z h1 h2 => ?_) _ hP
      · unfold rGP cGP at h
        by_cases hs : y.score = x.score
        · rw [if_neg (by omega)] at h
          obtain ⟨u, hu⟩ := Option.isSome_iff_exists.1 hx
          obtain ⟨v, hv⟩ := Option.isSome_iff_exists.1 hy
          simp only [hu, hv] at h
          right
          refine ⟨hs.symm, ?_⟩
          simp only [pubKeyGP, hu, hv, Option.elim]
          omega
        · rw [if_pos (by omega)] at h
          left
          omega
      · unfold rGP cGP at h
        by_cases hs : y.score = x.score
        · rw [if_neg (by omega)] at h
          obtain ⟨u, hu⟩ := Option.isSome_iff_exists.1 hx
          obtain ⟨v, hv⟩ := Option.isSome_iff_exists.1 hy
          simp only [hu, hv] at h
          right
          refine ⟨hs, ?_⟩
          simp only [pubKeyGP, hu, hv, Option.elim]
          omega
        · rw [if_pos (by omega)] at h
          left
          omega
      · unfold claimOrderGP at h1 h2 ⊢
        omega
    constructor
    · exact hsorted.sublist (List.take_sublist 5 _)
    · simp [generatePersonalizedRecommendations, topBooksOf, List.length_take]

/-- Concrete history candidates with parseable dates for the witness. -/
def gpOld : BookGP :=
  { title := "o", author := "a", authors := [], description := "habit",
    publishedDate := "2026-01-01", pageCount := 0, categories := [],
    averageRating := 0, ratingsCount := 0, thumbnail := "" }

def gpNew : BookGP :=
  { title := "n", author := "a", authors := [], description := "habit",
    publishedDate := "2026-09-01", pageCount := 0, categories := [],
    averageRating := 0, ratingsCount := 0, thumbnail := "" }

def profSort : ProfileH :=
  { genres := [], themes := [], authors := [], keywords := [],
    topGenres := ["habit"], topKeywords := [], totalBooks := 0 }

theorem assembler_order_amended_witness :
    (∀ b ∈ [gpOld, gpNew], (parseDate b.publishedDate).isSome)
      ∧ (topBooksOf [gpOld, gpNew] profSort (2026, 9, 12)).Pairwise claimOrderGP
      ∧ (generatePersonalizedRecommendations [gpOld, gpNew] profSort
          (2026, 9, 12)).length ≤ 5 := by
  have h : ∀ b ∈ [gpOld, gpNew], (parseDate b.publishedDate).isSome := by decide
  exact ⟨h, (assembler_order_amended.2 [gpOld, gpNew] profSort (2026, 9, 12) h).1,
    (assembler_order_amended.2 [gpOld, gpNew] profSort (2026, 9, 12) h).2⟩

/-! ### Infix decomposition

Inserting text at the description-source boundary can only destroy a match
that straddles that boundary, and any straddling match contains the boundary
space.  The lemmas below make that precise. -/

theorem infix_append_split {α : Type} {t A B : List α} (h : t <:+: A ++ B) :
    t <:+: A ∨ t <:+: B
      ∨ ∃ t1 t2, t = t1 ++ t2 ∧ t1 ≠ [] ∧ t2 ≠ [] ∧ t1 <:+ A ∧ t2 <+: B := by
  obtain ⟨s, u, hsu⟩ := h
  rw [List.append_assoc] at hsu
  rcases List.append_eq_append_iff.1 hsu with ⟨a', ha1, ha2⟩ | ⟨c', hc1, hc2⟩
  · rcases List.append_eq_append_iff.1 ha2 with ⟨w, hw1, _⟩ | ⟨w, hw1, hw2⟩
    · left
      exact ⟨s, w, by rw [ha1, hw1, List.append_assoc]⟩
    · rcases eq_or_ne a' [] with rfl | ha
      · right; left
        refine ⟨[], u, ?_⟩
        simp only [List.nil_append] at hw1
        rw [← hw1] at hw2
        simpa using hw2.symm
      · rcases eq_or_ne w [] with rfl | hwne
        · left
          exact ⟨s, [], by rw [ha1, hw1]; simp⟩
        · right; right
          exact ⟨a', w, hw1, ha, hwne, ⟨s, ha1.symm⟩, ⟨u, hw2.symm⟩⟩
  · right; left
    exact ⟨c', u, by rw [hc2, List.append_assoc]⟩

theorem suffix_comparable {α : Type} {l₁ l₂ l₃ : List α}
    (h₁ : l₁ <:+ l₃) (h₂ : l₂ <:+ l₃) : l₁ <:+ l₂ ∨ l₂ <:+ l₁ := by
  obtain ⟨s, rfl⟩ := h₁
  obtain ⟨s', hs'⟩ := h₂
  rcases List.append_eq_append_iff.1 hs' with ⟨a', _, ha2⟩ | ⟨c', _, hc2⟩
  · exact Or.inl ⟨a', ha2.symm⟩
  · exact Or.inr ⟨c', hc2.symm⟩

/-- A space-free infix of `X ++ ' ' :: S` survives the insertion of
`T ++ ' ' ::` before `S`. -/
theorem spacefree_infix_preserved {t X S T : List Char} (hsp : ' ' ∉ t)
    (h : t <:+: X ++ ' ' :: S) : t <:+: X ++ ' ' :: (T ++ ' ' :: S) := by
  rcases infix_append_split (B := ' ' :: S) h with hX | hS | ⟨t1, t2, rfl, -, ht2ne, -, ht2⟩
  · exact hX.trans (List.prefix_append X _).isInfix
  · refine hS.trans ?_
    have heq : X ++ ' ' :: (T ++ ' ' :: S) = (X ++ ' ' :: T) ++ (' ' :: S) := by simp
    rw [heq]
    exact (List.suffix_append (X ++ ' ' :: T) (' ' :: S)).isInfix
  · exfalso
    rcases t2 with _ | ⟨c, t2'⟩
    · exact ht2ne rfl
    · obtain ⟨r, hr⟩ := ht2
      rw [List.cons_append] at hr
      have hc : c = ' ' := by injection hr
      subst hc
      exact hsp (by simp)

theorem space_split {a b c d : List Char} (h : a ++ ' ' :: b = c ++ ' ' :: d)
    (hc : ' ' ∉ c) (hd : ' ' ∉ d) : a = c ∧ b = d := by
  induction c generalizing a with
  | nil =>
    rcases a with _ | ⟨x, a'⟩
    · simpa using h
    · exfalso
      simp only [List.cons_append, List.nil_append, List.cons.injEq] at h
      exact hd (h.2 ▸ by simp)
  | cons y c' ih =>
    rcases a with _ | ⟨x, a'⟩
    · exfalso
      simp only [List.nil_append, List.cons_append, List.cons.injEq] at h
      exact hc (by simp [← h.1])
    · simp only [List.cons_append, List.cons.injEq] at h
      obtain ⟨ha, hb⟩ := ih h.2 (fun hm => hc (by simp [hm]))
      exact ⟨by rw [h.1, ha], hb⟩

/-- A one-space term that matched before the insertion but not after must
straddle the boundary: its first word is a suffix of the part before the
boundary. -/
theorem destroyed_crossing {w1 w2 X S T : List Char}
    (h1 : ' ' ∉ w1) (h2 : ' ' ∉ w2)
    (hA : w1 ++ ' ' :: w2 <:+: X ++ ' ' :: S)
    (hB : ¬ w1 ++ ' ' :: w2 <:+: X ++ ' ' :: (T ++ ' ' :: S)) :
    w1 <:+ X := by
  rcases infix_append_split (B := ' ' :: S) hA
    with hX | hS | ⟨t1, t2, ht, ht1ne, ht2ne, ht1, ht2⟩
  · exact absurd (hX.trans (List.prefix_append X _).isInfix) hB
  · exfalso
    apply hB
    refine hS.trans ?_
    have : X ++ ' ' :: (T ++ ' ' :: S) = (X ++ ' ' :: T) ++ (' ' :: S) := by simp
    rw [this]
    exact (List.suffix_append (X ++ ' ' :: T) (' ' :: S)).isInfix
  · rcases t2 with _ | ⟨c, t2'⟩
    · exact absurd rfl ht2ne
    · have hc : c = ' ' := by
        obtain ⟨r, hr⟩ := ht2
        rw [List.cons_append] at hr
        injection hr
      subst hc
      obtain ⟨hw, -⟩ := space_split ht.symm h1 h2
      rwa [hw] at ht1

/-! ### Claim C5: genre-match analysis for the find-similar scorer -/

/-- The genre tags of the find-similar taxonomy, in source order. -/
def taxonomyFS : List String := genrePatternsFS.map (fun pr => pr.1)

/-- The scorer's genre test: either underscore-replacement form occurs in the
content. -/
def gMatchP (content : List Char) (g : String) : Prop :=
  (gSpace g).data <:+: content ∨ (gNone g).data <:+: content

/-- A genre match present in content `c` but absent from content `d`. -/
def Destroyed (c d : List Char) (g : String) : Prop :=
  gMatchP c g ∧ ¬ gMatchP d g

theorem includes_or_iff (c : List Char) (g : String) :
    (includesB c (gSpace g) || includesB c (gNone g)) = true ↔ gMatchP c g := by
  simp [includesB, gMatchP]

theorem taxonomy_gNone_spacefree : ∀ g ∈ taxonomyFS, ' ' ∉ (gNone g).data := by
  decide

theorem taxonomy_forms_lower :
    ∀ g ∈ taxonomyFS, (gSpace g).data.map lowerChar = (gSpace g).data := by
  decide

theorem taxonomy_gSpace_spacefree :
    ∀ g ∈ taxonomyFS, g ≠ "literary_fiction" → g ≠ "self_help" →
      g ≠ "current_affairs" → ' ' ∉ (gSpace g).data := by
  decide

theorem gSpace_lf :
    (gSpace "literary_fiction").data = "literary".data ++ ' ' :: "fiction".data := by
  decide

theorem gSpace_sh :
    (gSpace "self_help").data = "self".data ++ ' ' :: "help".data := by
  decide

theorem gSpace_ca :
    (gSpace "current_affairs").data = "current".data ++ ' ' :: "affairs".data := by
  decide

/-- Only the three underscore genres can lose their match when text is
inserted at the description-source boundary, and each pins its first word as
a suffix of the pre-boundary text. -/
theorem destroyed_char {X S T : List Char} {g : String} (hg : g ∈ taxonomyFS)
    (hd : Destroyed (X ++ ' ' :: S) (X ++ ' ' :: (T ++ ' ' :: S)) g) :
    (g = "literary_fiction" ∧ "literary".data <:+ X)
      ∨ (g = "self_help" ∧ "self".data <:+ X)
      ∨ (g = "current_affairs" ∧ "current".data <:+ X) := by
  obtain ⟨hA, hB⟩ := hd
  rcases hA with hs | hn
  · have hBs : ¬ (gSpace g).data <:+: X ++ ' ' :: (T ++ ' ' :: S) :=
      fun hh => hB (Or.inl hh)
    by_cases h1 : g = "literary_fiction"
    · subst h1
      rw [gSpace_lf] at hs hBs
      exact Or.inl ⟨rfl, destroyed_crossing (by decide) (by decide) hs hBs⟩
    · by_cases h2 : g = "self_help"
      · subst h2
        rw [gSpace_sh] at hs hBs
        exact Or.inr (Or.inl ⟨rfl, destroyed_crossing (by decide) (by decide) hs hBs⟩)
      · by_cases h3 : g = "current_affairs"
        · subst h3
          rw [gSpace_ca] at hs hBs
          exact Or.inr (Or.inr ⟨rfl, destroyed_crossing (by decide) (by decide) hs hBs⟩)
        · exact absurd
            (spacefree_infix_preserved (taxonomy_gSpace_spacefree g hg h1 h2 h3) hs) hBs
  · exact absurd
      (Or.inr (spacefree_infix_preserved (taxonomy_gNone_spacefree g hg) hn))
      hB

/-- At most one taxonomy genre can be destroyed by one insertion: the three
candidate first words are pairwise incomparable as suffixes. -/
theorem destroyed_unique {X S T : List Char} {g g' : String}
    (hg : g ∈ taxonomyFS) (hg' : g' ∈ taxonomyFS)
    (hd : Destroyed (X ++ ' ' :: S) (X ++ ' ' :: (T ++ ' ' :: S)) g)
    (hd' : Destroyed (X ++ ' ' :: S) (X ++ ' ' :: (T ++ ' ' :: S)) g') :
    g = g' := by
  rcases destroyed_char hg hd with ⟨e, hw⟩ | ⟨e, hw⟩ | ⟨e, hw⟩ <;>
    rcases destroyed_char hg' hd' with ⟨e', hw'⟩ | ⟨e', hw'⟩ | ⟨e', hw'⟩ <;>
    subst e <;> subst e' <;>
    first
      | rfl
      | (rcases suffix_comparable hw hw' with hc | hc <;>
          exact absurd hc (by decide))

/-! ### Claim C5: sum comparisons -/

theorem genreScoreAux_le_of_preserved (c d : List Char) :
    ∀ (gs : List String) (i : Nat),
      (∀ g ∈ gs, gMatchP c g → gMatchP d g) →
      genreScoreAux c gs i ≤ genreScoreAux d gs i := by
  intro gs
  induction gs with
  | nil => intro i _; simp [genreScoreAux]
  | cons g gs ih =>
    intro i h
    have hrest := ih (i + 1) (fun g' hg' => h g' (by simp [hg']))
    have hw : (1 : Int) ≤ max 1 (5 - (i : Int)) := le_max_left _ _
    simp only [genreScoreAux]
    by_cases hm : gMatchP c g
    · rw [if_pos ((includes_or_iff c g).2 hm),
        if_pos ((includes_or_iff d g).2 (h g (by simp) hm))]
      omega
    · rw [if_neg (fun hc => hm ((includes_or_iff c g).1 hc))]
      split_ifs <;> omega

theorem themeScoreAux_le_of_preserved (c d : List Char) :
    ∀ (ts : List String) (i : Nat),
      (∀ t ∈ ts, t.data <:+: c → t.data <:+: d) →
      themeScoreAux c ts i ≤ themeScoreAux d ts i := by
  intro ts
  induction ts with
  | nil => intro i _; simp [themeScoreAux]
  | cons t ts ih =>
    intro i h
    have hrest := ih (i + 1) (fun t' ht' => h t' (by simp [ht']))
    have hw : (1 : Int) ≤ max 1 (3 - ((i / 2 : Nat) : Int)) := le_max_left _ _
    simp only [themeScoreAux]
    by_cases hm : t.data <:+: c
    · have hd2 : includesB d t = true := by
        simp [includesB]
        exact h t (by simp) hm
      have hc2 : includesB c t = true := by simp [includesB, hm]
      rw [if_pos hc2, if_pos hd2]
      omega
    · have hc2 : ¬ includesB c t = true := by simp [includesB, hm]
      rw [if_neg hc2]
      split_ifs <;> omega

/-- Losing at most one genre match of weight at most `2 * 4` while keeping
the others bounds the drop of the ranked-genre sum, from rank 1 on, by 8. -/
theorem genreScoreAux_le_add8 (c d : List Char)
    (huniq : ∀ g g', Destroyed c d g → Destroyed c d g' →
      g ∈ taxonomyFS → g' ∈ taxonomyFS → g = g') :
    ∀ (gs : List String) (i : Nat), 1 ≤ i → gs.Nodup →
      (∀ g ∈ gs, g ∈ taxonomyFS) →
      genreScoreAux c gs i ≤ genreScoreAux d gs i + 8 := by
  intro gs
  induction gs with
  | nil => intro i _ _ _; simp [genreScoreAux]
  | cons g gs ih =>
    intro i hi hnd htax
    rw [List.nodup_cons] at hnd
    have hw : (1 : Int) ≤ max 1 (5 - (i : Int)) := le_max_left _ _
    have hw4 : max 1 (5 - (i : Int)) ≤ 4 := by
      apply max_le <;> omega
    simp only [genreScoreAux]
    by_cases hdg : Destroyed c d g
    · have hpres : ∀ g' ∈ gs, gMatchP c g' → gMatchP d g' := by
        intro g' hg' hm
        by_contra hno
        have : g' = g := huniq g' g ⟨hm, hno⟩ hdg
          (htax g' (by simp [hg'])) (htax g (by simp))
        exact hnd.1 (this ▸ hg')
      have hrest := genreScoreAux_le_of_preserved c d gs (i + 1) hpres
      split_ifs <;> omega
    · have hrest := ih (i + 1) (by omega) hnd.2 (fun g' hg' => htax g' (by simp [hg']))
      by_cases hm : gMatchP c g
      · have hmd : gMatchP d g := by
          by_contra hno
          exact hdg ⟨hm, hno⟩
        rw [if_pos ((includes_or_iff c g).2 hm), if_pos ((includes_or_iff d g).2 hmd)]
        omega
      · rw [if_neg (fun hc => hm ((includes_or_iff c g).1 hc))]
        split_ifs <;> omega

/-! ### Claim C5: content shapes under description insertion -/

theorem lowerChar_space : lowerChar ' ' = ' ' := rfl

theorem data_space : (" " : String).data = [' '] := rfl

theorem contentFS_shape (b : Book) :
    contentFS b = (b.title.data ++ ' ' :: b.description.data).map lowerChar
      ++ ' ' :: b.source.data.map lowerChar := by
  simp [contentFS, List.map_append, lowerChar_space, List.append_assoc]

theorem contentFS_insert (b : Book) (t : String) :
    contentFS { b with description := b.description ++ " " ++ t }
      = (b.title.data ++ ' ' :: b.description.data).map lowerChar
        ++ ' ' :: (t.data.map lowerChar ++ ' ' :: b.source.data.map lowerChar) := by
  simp [contentFS, String.data_append, data_space, List.map_append, lowerChar_space,
    List.append_assoc]

theorem contentGP_shape (b : BookGP) :
    contentGP b = (b.title ++ " " ++ b.description).data.map lowerChar
      ++ ' ' :: (String.intercalate " " b.categories).data.map lowerChar := by
  simp [contentGP, String.data_append, data_space, List.map_append, lowerChar_space,
    List.append_assoc]

theorem contentGP_insert (b : BookGP) (t : String) :
    contentGP { b with description := b.description ++ " " ++ t }
      = (b.title ++ " " ++ b.description).data.map lowerChar
        ++ ' ' :: (t.data.map lowerChar
            ++ ' ' :: (String.intercalate " " b.categories).data.map lowerChar) := by
  simp [contentGP, String.data_append, data_space, List.map_append, lowerChar_space,
    List.append_assoc]

theorem genreScoreGP_le_of_preserved (c d : List Char) :
    ∀ (gs : List String) (i : Nat), gs.length + i ≤ 5 →
      (∀ g ∈ gs, g.data <:+: c → g.data <:+: d) →
      genreScoreGP c gs i ≤ genreScoreGP d gs i := by
  intro gs
  induction gs with
  | nil => intro i _ _; simp [genreScoreGP]
  | cons g gs ih =>
    intro i hlen h
    simp only [List.length_cons] at hlen
    have hrest := ih (i + 1) (by omega) (fun g' hg' => h g' (by simp [hg']))
    have hi : (i : Int) ≤ 4 := by exact_mod_cast Nat.le_of_lt_succ (by omega)
    simp only [genreScoreGP]
    by_cases hm : g.data <:+: c
    · have hc2 : includesB c g = true := by simp [includesB, hm]
      have hd2 : includesB d g = true := by
        simp only [includesB, decide_eq_true_eq]
        exact h g (by simp) hm
      rw [if_pos hc2, if_pos hd2]
      omega
    · have hc2 : ¬ includesB c g = true := by simp [includesB, hm]
      rw [if_neg hc2]
      split_ifs <;> nlinarith

theorem kwScoreGP_le_of_preserved (c d : List Char) :
    ∀ (ks : List String) (i : Nat),
      (∀ k ∈ ks, k.data <:+: c → k.data <:+: d) →
      kwScoreGP c ks i ≤ kwScoreGP d ks i := by
  intro ks
  induction ks with
  | nil => intro i _; simp [kwScoreGP]
  | cons k ks ih =>
    intro i h
    have hrest := ih (i + 1) (fun k' hk' => h k' (by simp [hk']))
    have hw : (1 : Int) ≤ max 1 (3 - ((i / 3 : Nat) : Int)) := le_max_left _ _
    simp only [kwScoreGP]
    by_cases hm : k.data <:+: c
    · have hc2 : includesB c k = true := by simp [includesB, hm]
      have hd2 : includesB d k = true := by
        simp only [includesB, decide_eq_true_eq]
        exact h k (by simp) hm
      rw [if_pos hc2, if_pos hd2]
      omega
    · have hc2 : ¬ includesB c k = true := by simp [includesB, hm]
      rw [if_neg hc2]
      split_ifs <;> omega

/-! ### Claim C5 -/

/-- A profile with a top genre whose themes contain spaces: four of its
themes match only across the description-source boundary of the candidate. -/
def profC5 : ProfileS :=
  { genres := ["literary_fiction"], themes := ["t aa s", " aa s", "aa s", "a s"] }

def bookC5 : Book :=
  { title := "t", author := "x", description := "aa", source := "s",
    publishedDate := "", averageRating := none, thumbnail := "", genre := "" }

/-- Claim C5 (counterexample): for a profile whose themes contain spaces,
appending the matching top-genre term to a candidate that lacked it does NOT
strictly increase the score — the 10-point genre gain is exactly cancelled by
four theme matches the insertion destroys (they straddled the
description-source boundary), so both scores are 13. -/
theorem score_monotonicity_counterexample :
    ¬ gMatchP (contentFS bookC5) "literary_fiction"
      ∧ ({ bookC5 with description :=
            bookC5.description ++ " " ++ gSpace "literary_fiction" } : Book).description
          = "aa literary fiction"
      ∧ scoreFS profC5 { bookC5 with description :=
            bookC5.description ++ " " ++ gSpace "literary_fiction" }
          = scoreFS profC5 bookC5
      ∧ scoreFS profC5 bookC5 = 13 := by
  refine ⟨?_, by decide, by decide, by decide⟩
  intro h
  rcases h with h | h <;> revert h <;> decide

/-- Claim C5 as amended: strict score increase holds for profiler-shaped
profiles.  Find-similar: if the profile's genres are distinct taxonomy tags
led by `g0`, its themes contain no spaces (the profiler's theme words never
do), and the candidate contains neither form of `g0`, then appending
`g0`'s term to the description strictly increases `scoreBooks`' score: the
rank-0 gain is 10 and at most one lower-ranked genre match (worth at most 8)
can be destroyed.  History flow: if the (at most 5) top genres and top
keywords are lower-case and space-free — as the history profiler produces
them — the same insertion strictly increases the score by at least the
15-point rank-0 gain, nothing being destroyed. -/
theorem score_monotonicity_amended :
    (∀ (p : ProfileS) (b : Book) (g0 : String) (rest : List String),
      p.genres = g0 :: rest →
      (∀ g ∈ p.genres, g ∈ taxonomyFS) →
      p.genres.Nodup →
      (∀ t ∈ p.themes, ' ' ∉ t.data) →
      ¬ gMatchP (contentFS b) g0 →
      scoreFS p b
        < scoreFS p { b with description := b.description ++ " " ++ gSpace g0 })
      ∧ (∀ (p : ProfileH) (now : Int × Nat × Nat) (b : BookGP) (g0 : String)
          (rest : List String),
        p.topGenres = g0 :: rest →
        p.topGenres.length ≤ 5 →
        (∀ g ∈ p.topGenres, g.data.map lowerChar = g.data ∧ ' ' ∉ g.data) →
        (∀ k ∈ p.topKeywords, ' ' ∉ k.data) →
        ¬ (g0.data <:+: contentGP b) →
        scoreGP p now b
          < scoreGP p now { b with description := b.description ++ " " ++ g0 }) := by
  constructor
  · intro p b g0 rest h1 htax hnodup hthemes hlack
    have hg0 : g0 ∈ taxonomyFS := htax g0 (by rw [h1]; simp)
    have hcA := contentFS_shape b
    have hcB := contentFS_insert b (gSpace g0)
    rw [taxonomy_forms_lower g0 hg0] at hcB
    -- the inserted term makes the top genre match in B
    have hmB : gMatchP
        (contentFS { b with description := b.description ++ " " ++ gSpace g0 }) g0 := by
      left
      rw [hcB]
      have h0 : ((b.title.data ++ ' ' :: b.description.data).map lowerChar ++ [' '])
            ++ (gSpace g0).data ++ (' ' :: b.source.data.map lowerChar)
          = (b.title.data ++ ' ' :: b.description.data).map lowerChar
            ++ ' ' :: ((gSpace g0).data ++ ' ' :: b.source.data.map lowerChar) := by
        simp
      rw [← h0]
      exact List.infix_append _ _ _
    -- themes are space-free, hence preserved
    have hthm : themeScoreAux (contentFS b) p.themes 0
        ≤ themeScoreAux
            (contentFS { b with description := b.description ++ " " ++ gSpace g0 })
            p.themes 0 := by
      apply themeScoreAux_le_of_preserved
      intro t ht hinf
      rw [hcA] at hinf
      rw [hcB]
      exact spacefree_infix_preserved (hthemes t ht) hinf
    -- at most one lower-ranked genre is destroyed
    have hdrop : genreScoreAux (contentFS b) rest 1
        ≤ genreScoreAux
            (contentFS { b with description := b.description ++ " " ++ gSpace g0 })
            rest 1 + 8 := by
      apply genreScoreAux_le_add8
      · intro g g' hd hd' hgt hgt'
        rw [hcA, hcB] at hd hd'
        exact destroyed_unique hgt hgt' hd hd'
      · omega
      · have := hnodup
        rw [h1, List.nodup_cons] at this
        exact this.2
      · intro g' hg'
        exact htax g' (by rw [h1]; simp [hg'])
    -- expand the two genre sums at the head
    have hAg : genreScoreAux (contentFS b) (g0 :: rest) 0
        = genreScoreAux (contentFS b) rest 1 := by
      simp only [genreScoreAux]
      rw [if_neg (fun hc => hlack ((includes_or_iff _ g0).1 hc))]
      simp
    have hBg : genreScoreAux
          (contentFS { b with description := b.description ++ " " ++ gSpace g0 })
          (g0 :: rest) 0
        = 10 + genreScoreAux
            (contentFS { b with description := b.description ++ " " ++ gSpace g0 })
            rest 1 := by
      simp only [genreScoreAux]
      rw [if_pos ((includes_or_iff _ g0).2 hmB)]
      norm_num
    unfold scoreFS
    rw [h1, hAg, hBg]
    have hsrc : ({ b with description := b.description ++ " " ++ gSpace g0 } : Book).source
        = b.source := rfl
    have hpd : ({ b with description := b.description ++ " " ++ gSpace g0 } : Book).publishedDate
        = b.publishedDate := rfl
    have hav : ({ b with description := b.description ++ " " ++ gSpace g0 } : Book).averageRating
        = b.averageRating := rfl
    rw [hsrc, hpd, hav]
    omega
  · intro p now b g0 rest h1 hlen hgen hkw hlack
    have hg0 := hgen g0 (by rw [h1]; simp)
    have hcA := contentGP_shape b
    have hcB := contentGP_insert b g0
    rw [hg0.1] at hcB
    have hmB : g0.data <:+: contentGP { b with description := b.description ++ " " ++ g0 } := by
      rw [hcB]
      have h0 : ((b.title ++ " " ++ b.description).data.map lowerChar ++ [' '])
            ++ g0.data
            ++ (' ' :: (String.intercalate " " b.categories).data.map lowerChar)
          = (b.title ++ " " ++ b.description).data.map lowerChar
            ++ ' ' :: (g0.data
              ++ ' ' :: (String.intercalate " " b.categories).data.map lowerChar) := by
        simp
      rw [← h0]
      exact List.infix_append _ _ _
    have hrest : genreScoreGP (contentGP b) rest 1
        ≤ genreScoreGP
            (contentGP { b with description := b.description ++ " " ++ g0 }) rest 1 := by
      apply genreScoreGP_le_of_preserved
      · rw [h1] at hlen
        simp only [List.length_cons] at hlen
        omega
      · intro g' hg' hinf
        rw [hcA] at hinf
        rw [hcB]
        exact spacefree_infix_preserved (hgen g' (by rw [h1]; simp [hg'])).2 hinf
    have hkwm : kwScoreGP (contentGP b) p.topKeywords 0
        ≤ kwScoreGP
            (contentGP { b with description := b.description ++ " " ++ g0 })
            p.topKeywords 0 := by
      apply kwScoreGP_le_of_preserved
      intro k hk hinf
      rw [hcA] at hinf
      rw [hcB]
      exact spacefree_infix_preserved (hkw k hk) hinf
    have hAg : genreScoreGP (contentGP b) (g0 :: rest) 0
        = genreScoreGP (contentGP b) rest 1 := by
      simp only [genreScoreGP]
      rw [if_neg (by simp [includesB, hlack])]
      simp
    have hBg : genreScoreGP
          (contentGP { b with description := b.description ++ " " ++ g0 })
          (g0 :: rest) 0
        = 15 + genreScoreGP
            (contentGP { b with description := b.description ++ " " ++ g0 }) rest 1 := by
      simp only [genreScoreGP]
      rw [if_pos (by simp [includesB, hmB])]
      norm_num
    unfold scoreGP
    rw [h1, hAg, hBg]
    have hpd : ({ b with description := b.description ++ " " ++ g0 } : BookGP).publishedDate
        = b.publishedDate := rfl
    have hav : ({ b with description := b.description ++ " " ++ g0 } : BookGP).averageRating
        = b.averageRating := rfl
    have hrc : ({ b with description := b.description ++ " " ++ g0 } : BookGP).ratingsCount
        = b.ratingsCount := rfl
    have hau : ({ b with description := b.description ++ " " ++ g0 } : BookGP).author
        = b.author := rfl
    rw [hpd, hav, hrc, hau]
    omega

/-- A profiler-shaped profile and a candidate lacking the business term, to
exercise the amended monotonicity theorem. -/
def profC5W : ProfileS := { genres := ["business"], themes := ["growth"] }

def bookC5W : Book :=
  { title := "t", author := "x", description := "plain words here",
    source := "s", publishedDate := "", averageRating := none,
    thumbnail := "", genre := "" }

theorem score_monotonicity_amended_witness :
    profC5W.genres = "business" :: []
      ∧ (∀ g ∈ profC5W.genres, g ∈ taxonomyFS)
      ∧ profC5W.genres.Nodup
      ∧ (∀ t ∈ profC5W.themes, ' ' ∉ t.data)
      ∧ ¬ gMatchP (contentFS bookC5W) "business"
      ∧ scoreFS profC5W bookC5W
          < scoreFS profC5W
              { bookC5W with description :=
                  bookC5W.description ++ " " ++ gSpace "business" } := by
  have h1 : profC5W.genres = "business" :: [] := rfl
  have h2 : ∀ g ∈ profC5W.genres, g ∈ taxonomyFS := by decide
  have h3 : profC5W.genres.Nodup := by decide
  have h4 : ∀ t ∈ profC5W.themes, ' ' ∉ t.data := by decide
  have h5 : ¬ gMatchP (contentFS bookC5W) "business" := by
    intro h
    rcases h with h | h <;> revert h <;> decide
  exact ⟨h1, h2, h3, h4, h5,
    score_monotonicity_amended.1 profC5W bookC5W "business" [] h1 h2 h3 h4 h5⟩

end BookRec
